import Mathlib

/-!
Verification development for the lost-and-found portal (models, claim-lifecycle
routes, admin routes, notification sink). All definitions are shallow embeddings
of the JavaScript source: mongoose documents become Lean structures, collections
become association lists keyed by ids (modelling MongoDB ObjectIds as Nat), and
each Express route handler becomes a function from a database state to a result
flag plus the successor state. Route-level side effects that no property refers
to (outbound email, the embedded admin-action audit list, contact history,
reporter-info snapshots, search tags) are not modelled; mongoose runs with
strict mode on by default, so writes to paths absent from a schema
(claim.approvedAt, claim.resolvedDate, claim.rejectionReason,
claim.contactStatus) are discarded and therefore have no counterpart here --
each such drop is noted at the definition it concerns.
-/

namespace LostFound

/-- Object ids (MongoDB ObjectIds) are modelled as naturals. -/
abbrev Oid := Nat

/-- Timestamps are modelled as naturals. -/
abbrev Time := Nat

/-- Item.type enum from src/models/Item.js. -/
inductive ItemType where
  | lost
  | found
deriving DecidableEq, Repr

/-- Item.status values. The schema enum in src/models/Item.js lists only
available, claim_pending and returned; owner_deleted is nevertheless written by
the admin user-deletion updateMany (src/routes/admin.js), which bypasses the
enum validator because mongoose update validators are off by default. -/
inductive ItemStatus where
  | available
  | claim_pending
  | returned
  | owner_deleted
deriving DecidableEq, Repr

/-- Whether a status value is allowed by the Item schema enum
(['available', 'claim_pending', 'returned']). -/
def itemStatusInSchemaEnum : ItemStatus → Bool
  | ItemStatus.owner_deleted => false
  | _ => true

/-- Claim.status enum from src/models/Claim.js. -/
inductive ClaimStatus where
  | pending
  | approved
  | rejected
deriving DecidableEq, Repr

/-- User.role enum from the User schema. -/
inductive Role where
  | student
  | admin
deriving DecidableEq, Repr

/-- Notification type enum from the User schema notifications subdocument. -/
inductive NotifType where
  | new_claim
  | claim_approved
  | claim_rejected
  | message_received
deriving DecidableEq, Repr

/-- One entry of the per-user notifications array (User schema). -/
structure Notification where
  ntype : NotifType
  message : String
  relatedItem : Option Oid
  relatedClaim : Option Oid
  isRead : Bool
  createdAt : Time
deriving DecidableEq, Repr

/-- Argument bundle of userSchema.methods.addNotification. -/
structure NotifData where
  ntype : NotifType
  message : String
  relatedItem : Option Oid
  relatedClaim : Option Oid
deriving DecidableEq, Repr

/-- User document (fields relevant to the claim lifecycle and the
notification sink; credentials, tokens and the admin-action audit list are
not referenced by any modelled behaviour). -/
structure User where
  name : String
  role : Role
  isVerified : Bool
  isSuspended : Bool
  isBanned : Bool
  notifications : List Notification
deriving DecidableEq, Repr

/-- Denormalized stats subdocument embedded in Item. -/
structure Stats where
  totalClaims : Nat
  pendingClaims : Nat
  approvedClaims : Nat
  lastUpdated : Time
deriving DecidableEq, Repr

/-- recentClaim summary subdocument embedded in Item. -/
structure RecentClaim where
  claimantName : String
  claimedAt : Time
  status : ClaimStatus
  message : String
deriving DecidableEq, Repr

/-- Item document (src/models/Item.js). reporterInfo and searchTags are
presentation caches never read by the modelled routes and are omitted. -/
structure Item where
  itype : ItemType
  status : ItemStatus
  reportedBy : Option Oid
  claimedBy : Option Oid
  resolvedDate : Option Time
  stats : Stats
  recentClaim : Option RecentClaim
deriving DecidableEq, Repr

/-- Claim document (src/models/Claim.js). The schema has no approvedAt,
resolvedDate, rejectionReason or contactStatus path, so route code assigning
those is dropped by mongoose strict mode; contactHistory is only appended by
the contact routes, which no modelled property touches. -/
structure Claim where
  item : Oid
  claimant : Oid
  owner : Option Oid
  message : String
  proofDescription : Option String
  status : ClaimStatus
  adminResponse : Option String
  resolvedAt : Option Time
  resolvedBy : Option Oid
  createdAt : Time
deriving DecidableEq, Repr

/-! Association-list collections, in insertion order, as MongoDB returns
unsorted finds. -/

/-- Lookup by id, i.e. Model.findById. -/
def alistFind {α : Type} (l : List (Oid × α)) (i : Oid) : Option α :=
  match l with
  | [] => none
  | p :: ps => if p.1 = i then some p.2 else alistFind ps i

/-- Rewrite every value in place, keeping keys and order (updateMany or a
single-document save modelled uniformly). -/
def alistMap {α : Type} (f : Oid → α → α) (l : List (Oid × α)) : List (Oid × α) :=
  l.map (fun p => (p.1, f p.1 p.2))

/-- Replace the value stored at one id (document save). -/
def alistSet {α : Type} (l : List (Oid × α)) (i : Oid) (a : α) : List (Oid × α) :=
  alistMap (fun k v => if k = i then a else v) l

/-! User model methods (userSchema.methods in the User schema file). -/

/-- Build the unshifted notification entry. -/
def mkNotification (d : NotifData) (now : Time) : Notification :=
  { ntype := d.ntype, message := d.message, relatedItem := d.relatedItem,
    relatedClaim := d.relatedClaim, isRead := false, createdAt := now }

/-- userSchema.methods.addNotification: unshift the new entry, then keep only
the latest 50 when the length exceeds 50. -/
def addNotification (u : User) (d : NotifData) (now : Time) : User :=
  let ns := mkNotification d now :: u.notifications
  { u with notifications := if 50 < ns.length then ns.take 50 else ns }

/-- Result of userSchema.methods.canPerformAction. -/
structure ActionCheck where
  allowed : Bool
  reason : Option String
deriving DecidableEq, Repr

/-- userSchema.methods.canPerformAction: banned, then suspended, then
unverified checks, in that order. -/
def canPerformAction (u : User) : ActionCheck :=
  if u.isBanned then { allowed := false, reason := some "Account is banned" }
  else if u.isSuspended then { allowed := false, reason := some "Account is suspended" }
  else if ¬ u.isVerified then { allowed := false, reason := some "Account is not verified" }
  else { allowed := true, reason := none }

/-- requireAuth (src/routes/items.js) and isLoggedIn (middleware/auth): the
request proceeds exactly when a session user exists; no account flags are
consulted. -/
def requireAuthOk (sessionUser : Option Oid) : Bool :=
  sessionUser.isSome

/-- adminAuth (src/routes/admin.js): session user exists and has role admin. -/
def adminAuthOk (sessionRole : Option Role) : Bool :=
  sessionRole = some Role.admin

/-! Database state and route handlers. Express registers the owner-facing
claim routes of src/routes/items.js twice (approve at lines 495 and 854,
reject at 564 and 902, contact at 625 and 944); the first registration wins
for every request, so only the first of each pair is embedded — the later
duplicates are dead code. The /claims router (mounted at /claims in app.js)
holds the found-item flow. -/

/-- The persistent store: items, claims and users keyed by id, plus the id
the next inserted claim receives. -/
structure DB where
  items : List (Oid × Item)
  claims : List (Oid × Claim)
  users : List (Oid × User)
  nextClaimId : Oid
deriving DecidableEq, Repr

/-- Outcome of one request: whether the handler answered with success, and
the store afterwards (failure paths that crash after a write keep the partial
write, exactly as the source does). -/
structure RouteResult where
  ok : Bool
  db : DB
deriving DecidableEq, Repr

/-- Handler failure with no state change. -/
def fail (db : DB) : RouteResult := { ok := false, db := db }

def findItem (db : DB) (i : Oid) : Option Item := alistFind db.items i

def findClaim (db : DB) (i : Oid) : Option Claim := alistFind db.claims i

def findUser (db : DB) (i : Oid) : Option User := alistFind db.users i

def setItem (db : DB) (i : Oid) (it : Item) : DB :=
  { db with items := alistSet db.items i it }

def setClaim (db : DB) (i : Oid) (c : Claim) : DB :=
  { db with claims := alistSet db.claims i c }

/-- Claim.countDocuments with filter item = i, status = pending. -/
def countPendingOnItem (db : DB) (i : Oid) : Nat :=
  (db.claims.filter (fun p => decide (p.2.item = i ∧ p.2.status = ClaimStatus.pending))).length

/-- Number of approved claims referencing item i. -/
def countApprovedOnItem (db : DB) (i : Oid) : Nat :=
  (db.claims.filter (fun p => decide (p.2.item = i ∧ p.2.status = ClaimStatus.approved))).length

/-- Claim.findOne with filter item = i, claimant = u, status = pending
(duplicate-pending-claim check of both submission flows). -/
def hasPendingClaimBy (db : DB) (i u : Oid) : Bool :=
  db.claims.any (fun p =>
    decide (p.2.item = i ∧ p.2.claimant = u ∧ p.2.status = ClaimStatus.pending))

/-- JS String.prototype.trim: strip whitespace from both ends (structural
model so that concrete instances evaluate). -/
def strTrim (s : String) : String :=
  String.mk (((s.data.dropWhile Char.isWhitespace).reverse.dropWhile
    Char.isWhitespace).reverse)

/-- Claim.updateMany of the owner approve and return routes: every claim of
routeItem other than keptClaim whose status is pending becomes rejected with
the given response text and resolvedAt stamped (resolvedBy is not in the
update document and stays untouched). -/
def rejectOtherPending (db : DB) (routeItem keptClaim : Oid) (response : String)
    (now : Time) : DB :=
  { db with claims := alistMap (fun k c =>
      if k ≠ keptClaim ∧ c.item = routeItem ∧ c.status = ClaimStatus.pending then
        { c with
                 status := ClaimStatus.rejected, adminResponse := some response,
                 resolvedAt := some now }
      else c) db.claims }

/-! Claim submission. -/

/-- POST /items/:id/claim (src/routes/items.js line 299), the general
submission flow. Checks in source order: non-blank message (trimmed), item
exists, the claimant is not the reporter, the item is available, no duplicate
pending claim by the same user. On success the claim is inserted with status
pending and owner = item.reportedBy, and the item (whose status was just
checked to be available) moves to claim_pending. -/
def submitClaim (db : DB) (itemId userId : Oid) (message : String)
    (proofDescription : Option String) (now : Time) : RouteResult :=
  if strTrim message = "" then fail db
  else
    match findItem db itemId with
    | none => fail db
    | some item =>
      if item.reportedBy = some userId then fail db
      else if item.status ≠ ItemStatus.available then fail db
      else if hasPendingClaimBy db itemId userId then fail db
      else
        let cl : Claim :=
          { item := itemId, claimant := userId, owner := item.reportedBy,
            message := strTrim message,
            proofDescription := some (proofDescription.getD "No additional proof provided"),
            status := ClaimStatus.pending, adminResponse := none,
            resolvedAt := none, resolvedBy := none, createdAt := now }
        let db1 : DB :=
          { db with
                    claims := db.claims ++ [(db.nextClaimId, cl)],
                    nextClaimId := db.nextClaimId + 1 }
        let db2 := setItem db1 itemId { item with status := ItemStatus.claim_pending }
        { ok := true, db := db2 }

/-- POST /claims/:itemId/claim (found-item flow). Checks in source order:
item exists, item.type is found, the reporter reference is populated (a null
reportedBy crashes on reportedBy._id before any write), the claimant is not
the reporter, the item is available, no duplicate pending claim; a blank
message makes claim.save() fail schema validation before any write. On
success the item is set to claim_pending unconditionally. -/
def submitClaimFound (db : DB) (itemId claimantId : Oid) (message : String)
    (proofDescription : Option String) (now : Time) : RouteResult :=
  match findItem db itemId with
  | none => fail db
  | some item =>
    if item.itype ≠ ItemType.found then fail db
    else
      match item.reportedBy with
      | none => fail db
      | some reporter =>
        if reporter = claimantId then fail db
        else if item.status ≠ ItemStatus.available then fail db
        else if hasPendingClaimBy db itemId claimantId then fail db
        else if message = "" then fail db
        else
          let cl : Claim :=
            { item := itemId, claimant := claimantId, owner := some reporter,
              message := message, proofDescription := proofDescription,
              status := ClaimStatus.pending, adminResponse := none,
              resolvedAt := none, resolvedBy := none, createdAt := now }
          let db1 : DB :=
            { db with
                      claims := db.claims ++ [(db.nextClaimId, cl)],
                      nextClaimId := db.nextClaimId + 1 }
          let db2 := setItem db1 itemId { item with status := ItemStatus.claim_pending }
          { ok := true, db := db2 }

/-! Owner-facing approve, reject and return (src/routes/items.js). -/

/-- POST /items/:itemId/claims/:claimId/approve (line 495). Requires the item
and the claim to exist and the actor to be the reporter (a null reportedBy
crashes on toString before any write); it never checks claim.status, nor that
the claim references this item. Effects: the claim becomes approved with
adminResponse and resolvedAt (resolvedBy is never assigned), all other
pending claims of the route item are rejected, and the item becomes returned
with claimedBy = the claimant of the approved claim and resolvedDate. -/
def ownerApproveClaim (db : DB) (actorId itemId claimId : Oid) (now : Time) :
    RouteResult :=
  match findItem db itemId, findClaim db claimId with
  | some item, some cl =>
    match item.reportedBy with
    | none => fail db
    | some reporter =>
      if reporter ≠ actorId then fail db
      else
        let cl1 : Claim :=
          { cl with
                    status := ClaimStatus.approved,
                    adminResponse := some "Claim approved by item owner",
                    resolvedAt := some now }
        let db1 := setClaim db claimId cl1
        let db2 := rejectOtherPending db1 itemId claimId
          "Another claim was approved for this item." now
        let db3 := setItem db2 itemId
          { item with
                      status := ItemStatus.returned,
                      claimedBy := some cl.claimant, resolvedDate := some now }
        { ok := true, db := db3 }
  | _, _ => fail db

/-- POST /items/:itemId/claims/:claimId/reject (line 564). Same gate as the
owner approve; no claim.status check. Effects: the claim becomes rejected
with adminResponse = the given reason or the default text and resolvedAt
(resolvedBy is never assigned); then, counting pending claims of the route
item after the save, the item is set to available exactly when none remain,
otherwise the item is untouched. -/
def ownerRejectClaim (db : DB) (actorId itemId claimId : Oid)
    (rejectionReason : Option String) (now : Time) : RouteResult :=
  match findItem db itemId, findClaim db claimId with
  | some item, some cl =>
    match item.reportedBy with
    | none => fail db
    | some reporter =>
      if reporter ≠ actorId then fail db
      else
        let cl1 : Claim :=
          { cl with
                    status := ClaimStatus.rejected,
                    adminResponse :=
                      some (rejectionReason.getD "Claim rejected by item owner."),
                    resolvedAt := some now }
        let db1 := setClaim db claimId cl1
        let db2 :=
          if countPendingOnItem db1 itemId = 0 then
            setItem db1 itemId { item with status := ItemStatus.available }
          else db1
        { ok := true, db := db2 }
  | _, _ => fail db

/-- POST /items/:itemId/claims/:claimId/return (line 725). Unlike approve and
reject this route verifies claim.item = itemId; it still never checks
claim.status. Effects are those of the owner approve (claim approved with
adminResponse and resolvedAt, item returned with claimedBy and resolvedDate,
other pending claims of the item rejected). -/
def ownerReturnClaim (db : DB) (actorId itemId claimId : Oid) (now : Time) :
    RouteResult :=
  match findItem db itemId, findClaim db claimId with
  | some item, some cl =>
    match item.reportedBy with
    | none => fail db
    | some reporter =>
      if reporter ≠ actorId then fail db
      else if cl.item ≠ itemId then fail db
      else
        let cl1 : Claim :=
          { cl with
                    status := ClaimStatus.approved,
                    adminResponse := some "Item has been returned to claimant",
                    resolvedAt := some now }
        let db1 := setClaim db claimId cl1
        let db2 := setItem db1 itemId
          { item with
                      status := ItemStatus.returned,
                      claimedBy := some cl.claimant, resolvedDate := some now }
        let db3 := rejectOtherPending db2 itemId claimId
          "Item has been returned to another claimant." now
        { ok := true, db := db3 }
  | _, _ => fail db

/-! Admin claim routes (src/routes/admin.js, behind adminAuth). -/

/-- POST /admin/claims/:id/approve (line 311). Requires only that the claim
exists; no claim.status check, no sibling rejection. The claim becomes
approved with resolvedBy = the acting admin (the route also assigns
claim.resolvedDate, a path absent from the Claim schema, so no resolution
time is persisted). The item referenced by the claim is set to returned with
resolvedDate via findByIdAndUpdate — a no-op when the item is missing —
and claimedBy is never assigned. -/
def adminApproveClaim (db : DB) (actorId claimId : Oid) (now : Time) :
    RouteResult :=
  match findClaim db claimId with
  | none => fail db
  | some cl =>
    let cl1 : Claim :=
      { cl with status := ClaimStatus.approved, resolvedBy := some actorId }
    let db1 := setClaim db claimId cl1
    let db2 :=
      match findItem db1 cl.item with
      | none => db1
      | some it =>
        setItem db1 cl.item
          { it with status := ItemStatus.returned, resolvedDate := some now }
    { ok := true, db := db2 }

/-- POST /admin/claims/:id/reject (line 340). Requires only that the claim
exists; no claim.status check. The claim becomes rejected with resolvedBy =
the acting admin (resolvedDate again targets a non-schema path and is
dropped). The item referenced by the claim is set to available
unconditionally — pending sibling claims are not consulted. -/
def adminRejectClaim (db : DB) (actorId claimId : Oid) : RouteResult :=
  match findClaim db claimId with
  | none => fail db
  | some cl =>
    let cl1 : Claim :=
      { cl with status := ClaimStatus.rejected, resolvedBy := some actorId }
    let db1 := setClaim db claimId cl1
    let db2 :=
      match findItem db1 cl.item with
      | none => db1
      | some it => setItem db1 cl.item { it with status := ItemStatus.available }
    { ok := true, db := db2 }

/-! Found-item finder routes (/claims router). -/

/-- POST /claims/:claimId/approve (found-item flow). Requires the claim to
exist and the actor to equal claim.owner (a null owner crashes on toString
before any write); no claim.status check. The claim is saved with status
approved only (approvedAt is not a schema path and is dropped; resolvedAt,
resolvedBy and adminResponse are never assigned). Then the item is set to
returned with resolvedDate; claimedBy is never assigned and sibling pending
claims are not rejected. When the item is missing the dereference of the
populated claim.item crashes after the claim was already saved. -/
def finderApproveClaim (db : DB) (actorId claimId : Oid) (now : Time) :
    RouteResult :=
  match findClaim db claimId with
  | none => fail db
  | some cl =>
    match cl.owner with
    | none => fail db
    | some ownerId =>
      if ownerId ≠ actorId then fail db
      else
        let cl1 : Claim := { cl with status := ClaimStatus.approved }
        let db1 := setClaim db claimId cl1
        match findItem db1 cl.item with
        | none => { ok := false, db := db1 }
        | some it =>
          { ok := true,
            db := setItem db1 cl.item
              { it with status := ItemStatus.returned, resolvedDate := some now } }

/-- POST /claims/:claimId/reject (found-item flow). Same gate as the finder
approve; no claim.status check. The claim is saved with status rejected only
(no reason, no resolution metadata). Then pending claims of the item are
counted: when none remain the item is set to available, otherwise it is
untouched. A missing item crashes on the populated claim.item after the
claim was already saved. -/
def finderRejectClaim (db : DB) (actorId claimId : Oid) : RouteResult :=
  match findClaim db claimId with
  | none => fail db
  | some cl =>
    match cl.owner with
    | none => fail db
    | some ownerId =>
      if ownerId ≠ actorId then fail db
      else
        let cl1 : Claim := { cl with status := ClaimStatus.rejected }
        let db1 := setClaim db claimId cl1
        match findItem db1 cl.item with
        | none => { ok := false, db := db1 }
        | some it =>
          if countPendingOnItem db1 cl.item = 0 then
            { ok := true,
              db := setItem db1 cl.item { it with status := ItemStatus.available } }
          else { ok := true, db := db1 }

/-! Admin deletion routes (src/routes/admin.js). -/

/-- DELETE /admin/items/:id (line 107). When the item exists, every claim
referencing it is deleted (Claim.deleteMany), then the item itself; neither
the status of the item nor the presence of pending or approved claims is
consulted. -/
def adminDeleteItem (db : DB) (itemId : Oid) : RouteResult :=
  match findItem db itemId with
  | none => fail db
  | some _ =>
    let db1 : DB :=
      { db with claims := db.claims.filter (fun p => decide (p.2.item ≠ itemId)) }
    { ok := true,
      db := { db1 with items := db1.items.filter (fun p => decide (p.1 ≠ itemId)) } }

/-- DELETE /admin/items/bulk-delete (line 157): delete the claims referencing
any listed item, then the items, with no status precondition. The handler
answers success exactly when at least one item was removed; the deletions are
applied either way. (Id-format filtering is not represented: ids here are
already ids. Note the route is registered after DELETE /items/:id, whose
pattern also matches the literal path bulk-delete, so over HTTP this handler
is shadowed; it is embedded as written.) -/
def adminBulkDeleteItems (db : DB) (itemIds : List Oid) : RouteResult :=
  if itemIds = [] then fail db
  else
    let deletedCount := (db.items.filter (fun p => decide (p.1 ∈ itemIds))).length
    let db1 : DB :=
      { db with claims := db.claims.filter (fun p => decide (p.2.item ∉ itemIds)) }
    let db2 : DB :=
      { db1 with items := db1.items.filter (fun p => decide (p.1 ∉ itemIds)) }
    { ok := 0 < deletedCount, db := db2 }

/-- DELETE /admin/users/:id (line 494). Self-deletion is refused. Otherwise
every item reported by the user keeps existing but gets reportedBy cleared
and status owner_deleted (an updateMany, which bypasses the Item schema
status enum because mongoose update validators are off by default), the
claims whose claimant is the user are deleted, and the user is removed; the
response is success exactly when the user existed, the updates having been
applied either way. -/
def adminDeleteUser (db : DB) (actorId userId : Oid) : RouteResult :=
  if userId = actorId then fail db
  else
    let db1 : DB :=
      { db with items := alistMap (fun _ it =>
          if it.reportedBy = some userId then
            { it with reportedBy := none, status := ItemStatus.owner_deleted }
          else it) db.items }
    let db2 : DB :=
      { db1 with claims := db1.claims.filter (fun p => decide (p.2.claimant ≠ userId)) }
    let existed := (findUser db2 userId).isSome
    { ok := existed,
      db := { db2 with users := db2.users.filter (fun p => decide (p.1 ≠ userId)) } }

/-! Item stats projector (itemSchema.statics.updateItemStats,
src/models/Item.js line 179). -/

/-- First claim of maximal createdAt: claims.sort by createdAt descending is
stable, so taking index 0 yields the earliest-inserted claim among those with
the greatest createdAt. -/
def mostRecentClaim : List Claim → Option Claim
  | [] => none
  | c :: cs =>
    match mostRecentClaim cs with
    | none => some c
    | some m => if m.createdAt > c.createdAt then some m else some c

/-- The recentClaim summary built from one claim: claimant name looked up
(Unknown when the user is gone), the creation time, the status, and the
message truncated to 50 characters with a mark (an empty message yields the
empty string, the falsy branch of the source conditional). -/
def recentClaimSummary (db : DB) (c : Claim) : RecentClaim :=
  { claimantName := ((findUser db c.claimant).map (fun u => u.name)).getD "Unknown",
    claimedAt := c.createdAt, status := c.status,
    message := if c.message = "" then "" else c.message.take 50 ++ "..." }

/-- Item.updateItemStats(itemId): load the claims referencing the item,
recompute the three counters and the most-recent-claim summary from scratch,
and write them onto the item via findByIdAndUpdate (a no-op when the item no
longer exists). Only the stats and recentClaim paths of the item are written;
claims and users are never modified. -/
def updateItemStats (db : DB) (itemId : Oid) (now : Time) : DB :=
  let cls := (db.claims.filter (fun p => decide (p.2.item = itemId))).map Prod.snd
  let stats : Stats :=
    { totalClaims := cls.length,
      pendingClaims := (cls.filter (fun c => decide (c.status = ClaimStatus.pending))).length,
      approvedClaims := (cls.filter (fun c => decide (c.status = ClaimStatus.approved))).length,
      lastUpdated := now }
  let recent := (mostRecentClaim cls).map (recentClaimSummary db)
  match findItem db itemId with
  | none => db
  | some it => setItem db itemId { it with stats := stats, recentClaim := recent }

/-- Folding a list of updateItemStats invocations (item id and wall-clock
pairs), in order: the repetition and interleaving the idempotence property
quantifies over. -/
def runStatsCalls (db : DB) (calls : List (Oid × Time)) : DB :=
  calls.foldl (fun d p => updateItemStats d p.1 p.2) db

/-- Number of claims referencing item i (spec side of the stats projector). -/
def totalClaimsOnItem (db : DB) (i : Oid) : Nat :=
  (db.claims.filter (fun p => decide (p.2.item = i))).length

/-- Folding a list of addNotification invocations. -/
def addNotifications (u : User) (ds : List (NotifData × Time)) : User :=
  ds.foldl (fun v p => addNotification v p.1 p.2) u

/-- Spec side of the general submission flow (claim C6 wording): the item
exists, the claimant is not its reporter, it is available, no duplicate
pending claim, and the message is non-blank. -/
def generalSubmitSpec (db : DB) (itemId userId : Oid) (message : String) : Prop :=
  ¬ strTrim message = "" ∧
    ∃ it, findItem db itemId = some it ∧ ¬ it.reportedBy = some userId ∧
      it.status = ItemStatus.available ∧ hasPendingClaimBy db itemId userId = false

/-- Spec side of the found-item submission flow (claim C6 wording): as the
general flow plus item.type = found; the reporter reference must be populated
and the message check is the non-empty-string schema validation. -/
def foundSubmitSpec (db : DB) (itemId userId : Oid) (message : String) : Prop :=
  ∃ it reporter, findItem db itemId = some it ∧ it.itype = ItemType.found ∧
    it.reportedBy = some reporter ∧ ¬ reporter = userId ∧
    it.status = ItemStatus.available ∧ hasPendingClaimBy db itemId userId = false ∧
    ¬ message = ""

/-! Concrete database states used to instantiate the theorems. -/

/-- Zeroed stats subdocument (schema defaults). -/
def stats0 : Stats :=
  { totalClaims := 0, pendingClaims := 0, approvedClaims := 0, lastUpdated := 0 }

/-- User 1: the reporter of item 1. -/
def reporterU : User :=
  { name := "Riley", role := Role.student, isVerified := true,
    isSuspended := false, isBanned := false, notifications := [] }

/-- User 2: a claimant. -/
def claimantU : User := { reporterU with name := "Sam" }

/-- User 3: a second claimant. -/
def claimantU2 : User := { reporterU with name := "Alex" }

/-- User 4: a suspended account. -/
def suspendedU : User := { reporterU with name := "Jo", isSuspended := true }

/-- User 9: an administrator. -/
def adminU : User := { reporterU with name := "Dana", role := Role.admin }

/-- Item 1 while two claims are pending on it. -/
def pendingItem : Item :=
  { itype := ItemType.found, status := ItemStatus.claim_pending,
    reportedBy := some 1, claimedBy := none, resolvedDate := none,
    stats := stats0, recentClaim := none }

/-- Item 1 while available. -/
def availItem : Item := { pendingItem with status := ItemStatus.available }

/-- Claim 10: user 2 claims item 1 (pending). -/
def pendingClaimA : Claim :=
  { item := 1, claimant := 2, owner := some 1, message := "mine",
    proofDescription := none, status := ClaimStatus.pending,
    adminResponse := none, resolvedAt := none, resolvedBy := none,
    createdAt := 10 }

/-- Claim 11: user 3 claims item 1 (pending). -/
def pendingClaimB : Claim := { pendingClaimA with claimant := 3, createdAt := 11 }

/-- Claim 10 after a rejection that recorded nothing else. -/
def rejectedClaimA : Claim := { pendingClaimA with status := ClaimStatus.rejected }

/-- State with item 1 carrying the two pending claims 10 and 11. -/
def dbTwoPending : DB :=
  { items := [(1, pendingItem)],
    claims := [(10, pendingClaimA), (11, pendingClaimB)],
    users := [(1, reporterU), (2, claimantU), (3, claimantU2), (9, adminU)],
    nextClaimId := 12 }

/-- State with item 1 available again and claim 10 rejected. -/
def dbRejectedAvail : DB :=
  { items := [(1, availItem)], claims := [(10, rejectedClaimA)],
    users := [(1, reporterU), (2, claimantU)], nextClaimId := 11 }

/-- State with item 1 available, no claims, and a suspended user 4. -/
def dbAvailNoClaims : DB :=
  { items := [(1, availItem)], claims := [],
    users := [(1, reporterU), (4, suspendedU)], nextClaimId := 21 }

/-- A sample notification payload. -/
def sampleNotifData : NotifData :=
  { ntype := NotifType.new_claim, message := "Someone claimed your found item",
    relatedItem := some 1, relatedClaim := some 10 }

/-- A user whose notification list is already full (50 entries). -/
def fullInboxU : User :=
  { reporterU with notifications := List.replicate 50 (mkNotification sampleNotifData 0) }

/-- Item 1 as updateItemStats rewrites it in the two-pending-claims state:
two claims, both pending, the most recent being claim 11 by user 3. -/
def statsWitnessItem : Item :=
  { pendingItem with
    stats := { totalClaims := 2, pendingClaims := 2, approvedClaims := 0,
               lastUpdated := 31 },
    recentClaim := some { claimantName := "Alex", claimedAt := 11,
                          status := ClaimStatus.pending, message := "mine..." } }

/-! The exclusivity invariant of claim C2, the lifecycle transition relation
it is stated over, and a traced operation sequence that breaks the original
(unrestricted) form of the claim. -/

/-- Count of claims satisfying a Boolean predicate. -/
def countBy (f : Claim → Bool) (l : List (Oid × Claim)) : Nat :=
  (l.filter (fun p => f p.2)).length

/-- The claim is approved and references item I. -/
def approvedOn (I : Oid) (c : Claim) : Bool :=
  decide (c.item = I ∧ c.status = ClaimStatus.approved)

/-- The claim is pending and references item I. -/
def pendingOn (I : Oid) (c : Claim) : Bool :=
  decide (c.item = I ∧ c.status = ClaimStatus.pending)

/-- Wellformedness of the claim collection: distinct ids, all below the
next-id counter. Every store MongoDB produces satisfies this (_id values are
unique and inserts receive fresh ids). -/
def ClaimKeysWF (db : DB) : Prop :=
  (db.claims.map Prod.fst).Nodup ∧ ∀ p ∈ db.claims, p.1 < db.nextClaimId

/-- The exclusivity invariant in the strengthened form that makes it
inductive: every item id carries at most one approved claim, and an item id
carrying an approved claim has no pending claim and its item record, when
present, is not available. -/
def ApprovalExclusivityInv (db : DB) : Prop :=
  ∀ I : Oid, countApprovedOnItem db I ≤ 1 ∧
    (1 ≤ countApprovedOnItem db I →
      countPendingOnItem db I = 0 ∧
      ∀ it, findItem db I = some it → ¬ it.status = ItemStatus.available)

/-- One claim-lifecycle operation of the amended claim C2: submission through
either flow, and approve, reject or return through the owner and finder
routes applied to a claim that is pending at that moment and that references
the route item. The admin approve/reject routes, the found-item approve
route, and invocations on already-resolved claims are excluded: the
counterexample shows those gaps break exclusivity. -/
inductive LifecycleStep : DB → DB → Prop where
  | submit (db : DB) (itemId userId : Oid) (m : String) (pd : Option String)
      (now : Time) :
      LifecycleStep db (submitClaim db itemId userId m pd now).db
  | submitFound (db : DB) (itemId userId : Oid) (m : String)
      (pd : Option String) (now : Time) :
      LifecycleStep db (submitClaimFound db itemId userId m pd now).db
  | ownerApprove (db : DB) (a iid cid : Oid) (now : Time) (cl : Claim)
      (hcl : findClaim db cid = some cl)
      (hpend : cl.status = ClaimStatus.pending) (hci : cl.item = iid) :
      LifecycleStep db (ownerApproveClaim db a iid cid now).db
  | ownerReturn (db : DB) (a iid cid : Oid) (now : Time) (cl : Claim)
      (hcl : findClaim db cid = some cl)
      (hpend : cl.status = ClaimStatus.pending) :
      LifecycleStep db (ownerReturnClaim db a iid cid now).db
  | ownerReject (db : DB) (a iid cid : Oid) (reason : Option String)
      (now : Time) (cl : Claim) (hcl : findClaim db cid = some cl)
      (hpend : cl.status = ClaimStatus.pending) (hci : cl.item = iid) :
      LifecycleStep db (ownerRejectClaim db a iid cid reason now).db
  | finderReject (db : DB) (a cid : Oid) (cl : Claim)
      (hcl : findClaim db cid = some cl)
      (hpend : cl.status = ClaimStatus.pending) :
      LifecycleStep db (finderRejectClaim db a cid).db

/-- Reflexive-transitive closure of the lifecycle steps. -/
inductive LifecycleReachable : DB → DB → Prop where
  | refl (db : DB) : LifecycleReachable db db
  | step (db1 db2 db3 : DB) (h : LifecycleReachable db1 db2)
      (s : LifecycleStep db2 db3) : LifecycleReachable db1 db3

/-- Claim 21 as the general submission flow inserts it for user 4. -/
def exClaimA : Claim :=
  { item := 1, claimant := 4, owner := some 1, message := "mine",
    proofDescription := some "No additional proof provided",
    status := ClaimStatus.pending, adminResponse := none, resolvedAt := none,
    resolvedBy := none, createdAt := 40 }

/-- Claim 22 as the general submission flow inserts it for user 5. -/
def exClaimB : Claim :=
  { exClaimA with claimant := 5, message := "mine too", createdAt := 42 }

/-- After user 4 submits claim 21 on available item 1. -/
def exDb1 : DB := (submitClaim dbAvailNoClaims 1 4 "mine" none 40).db

/-- After the owner rejects claim 21 (item back to available). -/
def exDb2 : DB := (ownerRejectClaim exDb1 1 1 21 none 41).db

/-- After user 5 submits claim 22 on the again-available item 1. -/
def exDb3 : DB := (submitClaim exDb2 1 5 "mine too" none 42).db

/-- After the owner approves pending claim 22 (item returned). -/
def exDb4 : DB := (ownerApproveClaim exDb3 1 1 22 43).db

/-- After the owner approves the already-rejected claim 21 as well: both
claims 21 and 22 are now approved on item 1. -/
def exDb5 : DB := (ownerApproveClaim exDb4 1 1 21 44).db

/-! Theorems. -/

theorem alistFind_map {α : Type} (f : Oid → α → α) (l : List (Oid × α)) (i : Oid) :
    alistFind (alistMap f l) i = (alistFind l i).map (f i) := by
  induction l with
  | nil => rfl
  | cons p ps ih =>
    by_cases h : p.1 = i
    · subst h; simp [alistMap, alistFind]
    · simpa [alistMap, alistFind, h] using ih

theorem alistFind_set_self {α : Type} (l : List (Oid × α)) (i : Oid) (a : α) :
    alistFind (alistSet l i a) i = (alistFind l i).map (fun _ => a) := by
  simp [alistSet, alistFind_map]

theorem alistFind_set_ne {α : Type} (l : List (Oid × α)) (i j : Oid) (a : α)
    (h : j ≠ i) : alistFind (alistSet l i a) j = alistFind l j := by
  simp only [alistSet, alistFind_map]
  cases alistFind l j <;> simp [h]

theorem alistFind_append_right {α : Type} (l : List (Oid × α)) (i : Oid) (a : α)
    (h : alistFind l i = none) : alistFind (l ++ [(i, a)]) i = some a := by
  induction l with
  | nil => simp [alistFind]
  | cons p ps ih =>
    by_cases hp : p.1 = i
    · simp [alistFind, hp] at h
    · simp [alistFind, hp] at h ⊢
      exact ih h

theorem alistFind_append_ne {α : Type} (l : List (Oid × α)) (i j : Oid) (a : α)
    (h : j ≠ i) : alistFind (l ++ [(i, a)]) j = alistFind l j := by
  induction l with
  | nil => simp [alistFind, Ne.symm h]
  | cons p ps ih =>
    by_cases hp : p.1 = j
    · simp [alistFind, hp]
    · simp [alistFind, hp, ih]

theorem alistFind_filter_key_ne {α : Type} (l : List (Oid × α)) (i : Oid) :
    alistFind (l.filter (fun p => decide (p.1 ≠ i))) i = none := by
  induction l with
  | nil => rfl
  | cons p ps ih =>
    by_cases h : p.1 = i
    · simpa [List.filter_cons, h] using ih
    · simpa [List.filter_cons, h, alistFind] using ih

theorem findItem_setItem_self (db : DB) (i : Oid) (it : Item) :
    findItem (setItem db i it) i = (findItem db i).map (fun _ => it) :=
  alistFind_set_self db.items i it

theorem findItem_setItem_ne (db : DB) (i j : Oid) (it : Item) (h : j ≠ i) :
    findItem (setItem db i it) j = findItem db j :=
  alistFind_set_ne db.items i j it h

theorem findClaim_setClaim_self (db : DB) (i : Oid) (c : Claim) :
    findClaim (setClaim db i c) i = (findClaim db i).map (fun _ => c) :=
  alistFind_set_self db.claims i c

theorem findClaim_setClaim_ne (db : DB) (i j : Oid) (c : Claim) (h : j ≠ i) :
    findClaim (setClaim db i c) j = findClaim db j :=
  alistFind_set_ne db.claims i j c h

theorem findClaim_setItem (db : DB) (i : Oid) (it : Item) (j : Oid) :
    findClaim (setItem db i it) j = findClaim db j := rfl

theorem findItem_setClaim (db : DB) (i : Oid) (c : Claim) (j : Oid) :
    findItem (setClaim db i c) j = findItem db j := rfl

theorem findItem_rejectOtherPending (db : DB) (ri kc : Oid) (resp : String)
    (now : Time) (j : Oid) :
    findItem (rejectOtherPending db ri kc resp now) j = findItem db j := rfl

theorem findClaim_rejectOtherPending (db : DB) (ri kc : Oid) (resp : String)
    (now : Time) (cid : Oid) :
    findClaim (rejectOtherPending db ri kc resp now) cid
      = (findClaim db cid).map (fun c =>
          if cid ≠ kc ∧ c.item = ri ∧ c.status = ClaimStatus.pending then
            { c with
                     status := ClaimStatus.rejected, adminResponse := some resp,
                     resolvedAt := some now }
          else c) := by
  exact alistFind_map (fun k c =>
    if k ≠ kc ∧ c.item = ri ∧ c.status = ClaimStatus.pending then
      { c with
               status := ClaimStatus.rejected, adminResponse := some resp,
               resolvedAt := some now }
    else c) db.claims cid

theorem alistMap_keys {α : Type} (g : Oid → α → α) (l : List (Oid × α)) :
    (alistMap g l).map Prod.fst = l.map Prod.fst := by
  simp [alistMap, List.map_map, Function.comp]

theorem alistFind_mem {α : Type} {l : List (Oid × α)} {k : Oid} {v : α}
    (h : alistFind l k = some v) : (k, v) ∈ l := by
  induction l with
  | nil => cases h
  | cons p ps ih =>
    obtain ⟨k2, v2⟩ := p
    by_cases hp : k2 = k
    · subst hp
      simp [alistFind] at h
      subst h
      exact List.mem_cons_self _ _
    · simp [alistFind, hp] at h
      exact List.mem_cons_of_mem _ (ih h)

theorem alistSet_eq_of_not_mem {α : Type} {l : List (Oid × α)} {k : Oid}
    (v : α) (h : ∀ p ∈ l, p.1 ≠ k) : alistSet l k v = l := by
  induction l with
  | nil => rfl
  | cons p ps ih =>
    have hp : p.1 ≠ k := h p (List.mem_cons_self _ _)
    have hps := ih (fun q hq => h q (List.mem_cons_of_mem _ hq))
    simp [alistSet, alistMap, hp] at hps ⊢
    exact hps

theorem alistSet_value_at_key {α : Type} {l : List (Oid × α)} {k : Oid}
    {v : α} {p : Oid × α} (hp : p ∈ alistSet l k v) (hk : p.1 = k) :
    p.2 = v := by
  simp only [alistSet, alistMap, List.mem_map] at hp
  obtain ⟨q, hq, heq⟩ := hp
  subst heq
  simp only at hk
  simp [hk]

theorem alistMap_mem_decomp {α : Type} {g : Oid → α → α} {l : List (Oid × α)}
    {p : Oid × α} (hp : p ∈ alistMap g l) :
    ∃ q ∈ l, p = (q.1, g q.1 q.2) := by
  simp only [alistMap, List.mem_map] at hp
  obtain ⟨q, hq, heq⟩ := hp
  exact ⟨q, hq, heq.symm⟩

theorem countBy_append (f : Claim → Bool) (l : List (Oid × Claim)) (k : Oid)
    (c : Claim) :
    countBy f (l ++ [(k, c)]) = countBy f l + (if f c then 1 else 0) := by
  by_cases hc : f c <;> simp [countBy, List.filter_append, List.filter_cons, hc]

theorem countBy_eq_zero (f : Claim → Bool) (l : List (Oid × Claim))
    (h : ∀ p ∈ l, f p.2 = false) : countBy f l = 0 := by
  induction l with
  | nil => rfl
  | cons p ps ih =>
    have hp := h p (List.mem_cons_self _ _)
    have hps := ih (fun q hq => h q (List.mem_cons_of_mem _ hq))
    simp [countBy, List.filter_cons, hp] at hps ⊢
    exact hps

theorem countBy_pos_of_mem (f : Claim → Bool) {l : List (Oid × Claim)}
    {p : Oid × Claim} (hp : p ∈ l) (hf : f p.2 = true) : 1 ≤ countBy f l := by
  have hmem : p ∈ l.filter (fun q => f q.2) := List.mem_filter.mpr ⟨hp, hf⟩
  exact List.length_pos_of_mem hmem

theorem countBy_alistMap_pointwise (f : Claim → Bool)
    (g : Oid → Claim → Claim) (l : List (Oid × Claim))
    (h : ∀ k c, f (g k c) = f c) :
    countBy f (alistMap g l) = countBy f l := by
  induction l with
  | nil => rfl
  | cons p ps ih =>
    by_cases hf : f p.2 <;>
      simp [countBy, alistMap, List.filter_cons, h, hf] at ih ⊢ <;>
      omega

theorem countBy_alistSet (f : Claim → Bool) {l : List (Oid × Claim)} {k : Oid}
    {cl : Claim} (v : Claim) (hnd : (l.map Prod.fst).Nodup)
    (hfind : alistFind l k = some cl) :
    countBy f (alistSet l k v) + (if f cl then 1 else 0)
      = countBy f l + (if f v then 1 else 0) := by
  induction l with
  | nil => cases hfind
  | cons p ps ih =>
    obtain ⟨k2, c2⟩ := p
    simp only [List.map_cons, List.nodup_cons] at hnd
    by_cases hk : k2 = k
    · subst hk
      have hc : c2 = cl := by simpa [alistFind] using hfind
      subst hc
      have hps : alistSet ps k2 v = ps := by
        refine alistSet_eq_of_not_mem v (fun q hq hqk => ?_)
        exact hnd.1 (hqk ▸ List.mem_map_of_mem Prod.fst hq)
      have hhead : alistSet ((k2, c2) :: ps) k2 v = (k2, v) :: ps := by
        simp [alistSet, alistMap]
        exact hps
      rw [hhead]
      by_cases hfv : f v <;> by_cases hfc : f c2 <;>
        simp [countBy, List.filter_cons, hfv, hfc]
    · have hfind2 : alistFind ps k = some cl := by
        simpa [alistFind, hk] using hfind
      have hrec := ih hnd.2 hfind2
      have hhead : alistSet ((k2, c2) :: ps) k v = (k2, c2) :: alistSet ps k v := by
        simp [alistSet, alistMap, hk]
      rw [hhead]
      by_cases hfc : f c2
      · have hg1 : countBy f ((k2, c2) :: alistSet ps k v)
            = countBy f (alistSet ps k v) + 1 := by
          simp [countBy, List.filter_cons, hfc]
        have hg2 : countBy f ((k2, c2) :: ps) = countBy f ps + 1 := by
          simp [countBy, List.filter_cons, hfc]
        rw [hg1, hg2]
        omega
      · have hg1 : countBy f ((k2, c2) :: alistSet ps k v)
            = countBy f (alistSet ps k v) := by
          simp [countBy, List.filter_cons, hfc]
        have hg2 : countBy f ((k2, c2) :: ps) = countBy f ps := by
          simp [countBy, List.filter_cons, hfc]
        rw [hg1, hg2]
        omega

theorem countApprovedOnItem_eq_countBy (db : DB) (I : Oid) :
    countApprovedOnItem db I = countBy (approvedOn I) db.claims := rfl

theorem countPendingOnItem_eq_countBy (db : DB) (I : Oid) :
    countPendingOnItem db I = countBy (pendingOn I) db.claims := rfl

theorem rejectOtherPending_claims (db : DB) (ri kc : Oid) (resp : String)
    (now : Time) :
    (rejectOtherPending db ri kc resp now).claims
      = alistMap (fun k c =>
          if k ≠ kc ∧ c.item = ri ∧ c.status = ClaimStatus.pending then
            { c with
              status := ClaimStatus.rejected,
              adminResponse := some resp,
              resolvedAt := some now }
          else c) db.claims := rfl

theorem findItem_withClaims (db : DB) (cs : List (Oid × Claim)) (n : Oid)
    (j : Oid) :
    findItem { db with claims := cs, nextClaimId := n } j = findItem db j := rfl

theorem countPendingOnItem_setItem (db : DB) (i : Oid) (it : Item) (j : Oid) :
    countPendingOnItem (setItem db i it) j = countPendingOnItem db j := rfl

/-! Equation lemmas: each route handler, under the checks it performs,
evaluated to its explicit result. -/

theorem submitClaim_success_eq (db : DB) (itemId userId : Oid) (m : String)
    (pd : Option String) (now : Time) (it : Item)
    (hit : findItem db itemId = some it) (hm : ¬ strTrim m = "")
    (hrep : ¬ it.reportedBy = some userId)
    (hst : it.status = ItemStatus.available)
    (hdup : hasPendingClaimBy db itemId userId = false) :
    submitClaim db itemId userId m pd now =
      { ok := true,
        db := setItem
          { db with
              claims := db.claims ++
                [(db.nextClaimId,
                  { item := itemId, claimant := userId, owner := it.reportedBy,
                    message := strTrim m,
                    proofDescription :=
                      some (pd.getD "No additional proof provided"),
                    status := ClaimStatus.pending, adminResponse := none,
                    resolvedAt := none, resolvedBy := none, createdAt := now })],
              nextClaimId := db.nextClaimId + 1 }
          itemId { it with status := ItemStatus.claim_pending } } := by
  simp [submitClaim, hit, hm, hrep, hst, hdup]

theorem submitClaim_ok_iff (db : DB) (itemId userId : Oid) (m : String)
    (pd : Option String) (now : Time) :
    (submitClaim db itemId userId m pd now).ok = true ↔
      generalSubmitSpec db itemId userId m := by
  unfold generalSubmitSpec
  by_cases hm : strTrim m = ""
  · simp [submitClaim, hm, fail]
  · cases hit : findItem db itemId with
    | none => simp [submitClaim, hm, hit, fail]
    | some it =>
      by_cases hrep : it.reportedBy = some userId
      · simp [submitClaim, hm, hit, hrep, fail]
      · by_cases hst : it.status = ItemStatus.available
        · by_cases hdup : hasPendingClaimBy db itemId userId
          · simp [submitClaim, hm, hit, hrep, hst, hdup, fail]
          · simp [submitClaim, hm, hit, hrep, hst, hdup, fail,
              eq_false_of_ne_true]
        · simp [submitClaim, hm, hit, hrep, hst, fail]

theorem submitClaim_failure_eq (db : DB) (itemId userId : Oid) (m : String)
    (pd : Option String) (now : Time)
    (h : (submitClaim db itemId userId m pd now).ok = false) :
    (submitClaim db itemId userId m pd now).db = db := by
  by_cases hm : strTrim m = ""
  · simp [submitClaim, hm, fail]
  · cases hit : findItem db itemId with
    | none => simp [submitClaim, hm, hit, fail]
    | some it =>
      by_cases hrep : it.reportedBy = some userId
      · simp [submitClaim, hm, hit, hrep, fail]
      · by_cases hst : it.status = ItemStatus.available
        · by_cases hdup : hasPendingClaimBy db itemId userId
          · simp [submitClaim, hm, hit, hrep, hst, hdup, fail]
          · rw [submitClaim_success_eq db itemId userId m pd now it hit hm hrep hst
              (by simpa using hdup)] at h
            simp at h
        · simp [submitClaim, hm, hit, hrep, hst, fail]

theorem submitClaimFound_success_eq (db : DB) (itemId userId : Oid) (m : String)
    (pd : Option String) (now : Time) (it : Item) (reporter : Oid)
    (hit : findItem db itemId = some it) (hty : it.itype = ItemType.found)
    (hrep : it.reportedBy = some reporter) (hne : ¬ reporter = userId)
    (hst : it.status = ItemStatus.available)
    (hdup : hasPendingClaimBy db itemId userId = false) (hm : ¬ m = "") :
    submitClaimFound db itemId userId m pd now =
      { ok := true,
        db := setItem
          { db with
              claims := db.claims ++
                [(db.nextClaimId,
                  { item := itemId, claimant := userId, owner := some reporter,
                    message := m, proofDescription := pd,
                    status := ClaimStatus.pending, adminResponse := none,
                    resolvedAt := none, resolvedBy := none, createdAt := now })],
              nextClaimId := db.nextClaimId + 1 }
          itemId { it with status := ItemStatus.claim_pending } } := by
  simp [submitClaimFound, hit, hty, hrep, hne, hst, hdup, hm]

theorem submitClaimFound_ok_iff (db : DB) (itemId userId : Oid) (m : String)
    (pd : Option String) (now : Time) :
    (submitClaimFound db itemId userId m pd now).ok = true ↔
      foundSubmitSpec db itemId userId m := by
  unfold foundSubmitSpec
  cases hit : findItem db itemId with
  | none => simp [submitClaimFound, hit, fail]
  | some it =>
    by_cases hty : it.itype = ItemType.found
    · cases hrep : it.reportedBy with
      | none => simp [submitClaimFound, hit, hty, hrep, fail]
      | some reporter =>
        by_cases hne : reporter = userId
        · simp [submitClaimFound, hit, hty, hrep, hne, fail]
        · by_cases hst : it.status = ItemStatus.available
          · by_cases hdup : hasPendingClaimBy db itemId userId
            · simp [submitClaimFound, hit, hty, hrep, hne, hst, hdup, fail]
            · by_cases hm : m = ""
              · simp [submitClaimFound, hit, hty, hrep, hne, hst, hdup, hm, fail]
              · simp [submitClaimFound, hit, hty, hrep, hne, hst, hdup, hm]
          · simp [submitClaimFound, hit, hty, hrep, hne, hst, fail]
    · simp [submitClaimFound, hit, hty, fail]

theorem submitClaimFound_failure_eq (db : DB) (itemId userId : Oid) (m : String)
    (pd : Option String) (now : Time)
    (h : (submitClaimFound db itemId userId m pd now).ok = false) :
    (submitClaimFound db itemId userId m pd now).db = db := by
  cases hit : findItem db itemId with
  | none => simp [submitClaimFound, hit, fail]
  | some it =>
    by_cases hty : it.itype = ItemType.found
    · cases hrep : it.reportedBy with
      | none => simp [submitClaimFound, hit, hty, hrep, fail]
      | some reporter =>
        by_cases hne : reporter = userId
        · simp [submitClaimFound, hit, hty, hrep, hne, fail]
        · by_cases hst : it.status = ItemStatus.available
          · by_cases hdup : hasPendingClaimBy db itemId userId
            · simp [submitClaimFound, hit, hty, hrep, hne, hst, hdup, fail]
            · by_cases hm : m = ""
              · simp [submitClaimFound, hit, hty, hrep, hne, hst, hdup, hm, fail]
              · rw [submitClaimFound_success_eq db itemId userId m pd now it reporter
                  hit hty hrep hne hst (by simpa using hdup) hm] at h
                simp at h
          · simp [submitClaimFound, hit, hty, hrep, hne, hst, fail]
    · simp [submitClaimFound, hit, hty, fail]

theorem ownerApproveClaim_eq (db : DB) (actorId itemId claimId : Oid)
    (now : Time) (it : Item) (cl : Claim)
    (hit : findItem db itemId = some it) (hcl : findClaim db claimId = some cl)
    (hrep : it.reportedBy = some actorId) :
    ownerApproveClaim db actorId itemId claimId now =
      { ok := true,
        db := setItem
          (rejectOtherPending
            (setClaim db claimId
              { cl with
                        status := ClaimStatus.approved,
                        adminResponse := some "Claim approved by item owner",
                        resolvedAt := some now })
            itemId claimId "Another claim was approved for this item." now)
          itemId
          { it with
                    status := ItemStatus.returned,
                    claimedBy := some cl.claimant, resolvedDate := some now } } := by
  simp [ownerApproveClaim, hit, hcl, hrep]

theorem ownerRejectClaim_eq (db : DB) (actorId itemId claimId : Oid)
    (reason : Option String) (now : Time) (it : Item) (cl : Claim)
    (hit : findItem db itemId = some it) (hcl : findClaim db claimId = some cl)
    (hrep : it.reportedBy = some actorId) :
    ownerRejectClaim db actorId itemId claimId reason now =
      { ok := true,
        db :=
          let db1 := setClaim db claimId
            { cl with
                      status := ClaimStatus.rejected,
                      adminResponse :=
                        some (reason.getD "Claim rejected by item owner."),
                      resolvedAt := some now }
          if countPendingOnItem db1 itemId = 0 then
            setItem db1 itemId { it with status := ItemStatus.available }
          else db1 } := by
  simp [ownerRejectClaim, hit, hcl, hrep]

theorem ownerReturnClaim_eq (db : DB) (actorId itemId claimId : Oid)
    (now : Time) (it : Item) (cl : Claim)
    (hit : findItem db itemId = some it) (hcl : findClaim db claimId = some cl)
    (hrep : it.reportedBy = some actorId) (hci : cl.item = itemId) :
    ownerReturnClaim db actorId itemId claimId now =
      { ok := true,
        db := rejectOtherPending
          (setItem
            (setClaim db claimId
              { cl with
                        status := ClaimStatus.approved,
                        adminResponse := some "Item has been returned to claimant",
                        resolvedAt := some now })
            itemId
            { it with
                      status := ItemStatus.returned,
                      claimedBy := some cl.claimant, resolvedDate := some now })
          itemId claimId "Item has been returned to another claimant." now } := by
  simp [ownerReturnClaim, hit, hcl, hrep, hci]

theorem adminApproveClaim_eq (db : DB) (actorId claimId : Oid) (now : Time)
    (cl : Claim) (it : Item)
    (hcl : findClaim db claimId = some cl)
    (hit : findItem (setClaim db claimId
      { cl with status := ClaimStatus.approved, resolvedBy := some actorId })
      cl.item = some it) :
    adminApproveClaim db actorId claimId now =
      { ok := true,
        db := setItem
          (setClaim db claimId
            { cl with status := ClaimStatus.approved, resolvedBy := some actorId })
          cl.item
          { it with status := ItemStatus.returned, resolvedDate := some now } } := by
  simp [adminApproveClaim, hcl, hit]

theorem adminRejectClaim_eq (db : DB) (actorId claimId : Oid)
    (cl : Claim) (it : Item)
    (hcl : findClaim db claimId = some cl)
    (hit : findItem (setClaim db claimId
      { cl with status := ClaimStatus.rejected, resolvedBy := some actorId })
      cl.item = some it) :
    adminRejectClaim db actorId claimId =
      { ok := true,
        db := setItem
          (setClaim db claimId
            { cl with status := ClaimStatus.rejected, resolvedBy := some actorId })
          cl.item { it with status := ItemStatus.available } } := by
  simp [adminRejectClaim, hcl, hit]

theorem finderApproveClaim_eq (db : DB) (actorId claimId : Oid) (now : Time)
    (cl : Claim) (it : Item)
    (hcl : findClaim db claimId = some cl) (hv : cl.owner = some actorId)
    (hit : findItem (setClaim db claimId { cl with status := ClaimStatus.approved })
      cl.item = some it) :
    finderApproveClaim db actorId claimId now =
      { ok := true,
        db := setItem
          (setClaim db claimId { cl with status := ClaimStatus.approved })
          cl.item
          { it with status := ItemStatus.returned, resolvedDate := some now } } := by
  simp only [hv] at hit
  simp [finderApproveClaim, hcl, hv, hit]

theorem finderRejectClaim_eq (db : DB) (actorId claimId : Oid)
    (cl : Claim) (it : Item)
    (hcl : findClaim db claimId = some cl) (hv : cl.owner = some actorId)
    (hit : findItem (setClaim db claimId { cl with status := ClaimStatus.rejected })
      cl.item = some it) :
    finderRejectClaim db actorId claimId =
      { ok := true,
        db :=
          let db1 := setClaim db claimId { cl with status := ClaimStatus.rejected }
          if countPendingOnItem db1 cl.item = 0 then
            setItem db1 cl.item { it with status := ItemStatus.available }
          else db1 } := by
  simp only [hv] at hit
  by_cases h0 : countPendingOnItem
      (setClaim db claimId { cl with status := ClaimStatus.rejected }) cl.item = 0
  · simp only [hv] at h0
    simp [finderRejectClaim, hcl, hv, hit, h0]
  · simp only [hv] at h0
    simp [finderRejectClaim, hcl, hv, hit, h0]

/-! Claim theorems. -/

/-- Claim C7: For every user and every sequence of addNotification calls, the
notification list never exceeds 50 entries, it is ordered newest-first (each
call places the new entry at the head and keeps a prefix of the previous
list), and appending to a list that already holds 50 entries evicts the
oldest entry while keeping the 50 most recent (the new entry plus the 49
newest old ones). -/
theorem notification_sink_bounded (u : User) (d : NotifData) (now : Time) :
    (addNotification u d now).notifications
        = (mkNotification d now :: u.notifications).take 50
    ∧ (addNotification u d now).notifications.length
        = min (u.notifications.length + 1) 50
    ∧ (u.notifications.length = 50 →
        (addNotification u d now).notifications
          = mkNotification d now :: u.notifications.take 49)
    ∧ (∀ ds : List (NotifData × Time), u.notifications.length ≤ 50 →
        (addNotifications u ds).notifications.length ≤ 50) := by
  have hmain : ∀ (v : User) (e : NotifData) (t : Time),
      (addNotification v e t).notifications
        = (mkNotification e t :: v.notifications).take 50 := by
    intro v e t
    unfold addNotification
    by_cases h : 50 < (mkNotification e t :: v.notifications).length
    · simp [h]
    · simp [h, List.take_of_length_le (Nat.le_of_not_lt h)]
  have hlen : ∀ (v : User) (e : NotifData) (t : Time),
      (addNotification v e t).notifications.length
        = min (v.notifications.length + 1) 50 := by
    intro v e t
    rw [hmain]
    simp only [List.length_take, List.length_cons]
    omega
  refine ⟨hmain u d now, hlen u d now, ?_, ?_⟩
  · intro h50
    rw [hmain]
    have h49 : (50 : Nat) = 49 + 1 := rfl
    rw [h49, List.take_succ_cons]
  · intro ds
    induction ds generalizing u with
    | nil =>
      intro h
      simpa [addNotifications] using h
    | cons p ps ih =>
      intro h
      have hstep : (addNotification u p.1 p.2).notifications.length ≤ 50 := by
        rw [hlen]
        exact Nat.min_le_right _ _
      simpa [addNotifications] using ih (addNotification u p.1 p.2) hstep

/-- Witness for notification_sink_bounded at a user with a full inbox. -/
theorem notification_sink_bounded_witness :
    fullInboxU.notifications.length = 50
    ∧ (addNotification fullInboxU sampleNotifData 7).notifications
        = mkNotification sampleNotifData 7 :: fullInboxU.notifications.take 49
    ∧ (addNotifications fullInboxU [(sampleNotifData, 8)]).notifications.length ≤ 50 := by
  have h50 : fullInboxU.notifications.length = 50 := by
    simp [fullInboxU, reporterU]
  exact ⟨h50,
    (notification_sink_bounded fullInboxU sampleNotifData 7).2.2.1 h50,
    (notification_sink_bounded fullInboxU sampleNotifData 7).2.2.2
      [(sampleNotifData, 8)] (by rw [h50])⟩

theorem updateItemStats_claims (db : DB) (i : Oid) (now : Time) :
    (updateItemStats db i now).claims = db.claims := by
  unfold updateItemStats
  cases h : findItem db i <;> simp [setItem]

theorem runStatsCalls_claims (db : DB) (calls : List (Oid × Time)) :
    (runStatsCalls db calls).claims = db.claims := by
  induction calls generalizing db with
  | nil => rfl
  | cons p ps ih =>
    calc (runStatsCalls db (p :: ps)).claims
        = (runStatsCalls (updateItemStats db p.1 p.2) ps).claims := rfl
      _ = (updateItemStats db p.1 p.2).claims := ih _
      _ = db.claims := updateItemStats_claims db p.1 p.2

theorem statusCount_eq {itemId : Oid} (st : ClaimStatus) (cls : List (Oid × Claim)) :
    (((cls.filter (fun p => decide (p.2.item = itemId))).map Prod.snd).filter
        (fun c => decide (c.status = st))).length
      = (cls.filter (fun p => decide (p.2.item = itemId ∧ p.2.status = st))).length := by
  induction cls with
  | nil => rfl
  | cons p ps ih =>
    by_cases h1 : p.2.item = itemId
    · by_cases h2 : p.2.status = st
      · simp [List.filter_cons, h1, h2, ih]
      · simp [List.filter_cons, h1, h2, ih]
    · simp [List.filter_cons, h1, ih]

/-- Claim C8: Item.updateItemStats writes stats.totalClaims,
stats.pendingClaims and stats.approvedClaims equal to the number of claims
referencing the item, those pending, and those approved, recomputed from the
live claim set; no updateItemStats call modifies the claims, so any number of
calls in any order followed by a call for the item yields the same three
counters (idempotence). -/
theorem item_stats_projector_correct (db : DB) (calls : List (Oid × Time))
    (itemId : Oid) (now : Time) :
    (runStatsCalls db calls).claims = db.claims
    ∧ (∀ it,
        findItem (updateItemStats (runStatsCalls db calls) itemId now) itemId
          = some it →
        it.stats.totalClaims = totalClaimsOnItem db itemId
        ∧ it.stats.pendingClaims = countPendingOnItem db itemId
        ∧ it.stats.approvedClaims = countApprovedOnItem db itemId) := by
  refine ⟨runStatsCalls_claims db calls, ?_⟩
  intro it hit
  cases hfound : findItem (runStatsCalls db calls) itemId with
  | none =>
    unfold updateItemStats at hit
    rw [hfound] at hit
    rw [hfound] at hit
    cases hit
  | some it0 =>
    have hres : updateItemStats (runStatsCalls db calls) itemId now
        = setItem (runStatsCalls db calls) itemId
            { it0 with
              stats :=
                { totalClaims := (((runStatsCalls db calls).claims.filter
                    (fun p => decide (p.2.item = itemId))).map Prod.snd).length,
                  pendingClaims := ((((runStatsCalls db calls).claims.filter
                    (fun p => decide (p.2.item = itemId))).map Prod.snd).filter
                    (fun c => decide (c.status = ClaimStatus.pending))).length,
                  approvedClaims := ((((runStatsCalls db calls).claims.filter
                    (fun p => decide (p.2.item = itemId))).map Prod.snd).filter
                    (fun c => decide (c.status = ClaimStatus.approved))).length,
                  lastUpdated := now },
              recentClaim := (mostRecentClaim
                  (((runStatsCalls db calls).claims.filter
                    (fun p => decide (p.2.item = itemId))).map Prod.snd)).map
                  (recentClaimSummary (runStatsCalls db calls)) } := by
      unfold updateItemStats
      rw [hfound]
    rw [hres, findItem_setItem_self, hfound] at hit
    simp at hit
    subst hit
    refine ⟨?_, ?_, ?_⟩
    · simp [totalClaimsOnItem, ← runStatsCalls_claims db calls, List.length_map]
    · simp only [countPendingOnItem, ← runStatsCalls_claims db calls]
      exact statusCount_eq ClaimStatus.pending _
    · simp only [countApprovedOnItem, ← runStatsCalls_claims db calls]
      exact statusCount_eq ClaimStatus.approved _

set_option maxRecDepth 8192 in
/-- Witness for item_stats_projector_correct on the two-pending-claims
state. -/
theorem item_stats_projector_correct_witness :
    findItem (updateItemStats (runStatsCalls dbTwoPending [(1, 30)]) 1 31) 1
      = some statsWitnessItem
    ∧ statsWitnessItem.stats.totalClaims = totalClaimsOnItem dbTwoPending 1
    ∧ statsWitnessItem.stats.pendingClaims = countPendingOnItem dbTwoPending 1
    ∧ statsWitnessItem.stats.approvedClaims = countApprovedOnItem dbTwoPending 1 := by
  have hfind : findItem (updateItemStats (runStatsCalls dbTwoPending [(1, 30)]) 1 31) 1
      = some statsWitnessItem := by decide
  have h := (item_stats_projector_correct dbTwoPending [(1, 30)] 1 31).2 _ hfind
  exact ⟨hfind, h⟩

/-- Claim C10: the admin single-item deletion deletes every claim referencing
the item and then the item, succeeding whenever the item exists with no
precondition on its status or on pending or approved claims; the bulk
handler likewise removes the listed items and every claim referencing them
with no status precondition. (Over HTTP the bulk path is shadowed by the
single-item route, which rejects the literal id bulk-delete; the handler is
verified as written.) -/
theorem admin_item_deletion_cascades (db : DB) (itemId : Oid) (it : Item)
    (hit : findItem db itemId = some it) (ids : List Oid) (hids : ids ≠ []) :
    ((adminDeleteItem db itemId).ok = true
      ∧ (∀ p ∈ (adminDeleteItem db itemId).db.claims, p.2.item ≠ itemId)
      ∧ findItem (adminDeleteItem db itemId).db itemId = none)
    ∧ ((∀ p ∈ (adminBulkDeleteItems db ids).db.claims, p.2.item ∉ ids)
      ∧ (∀ p ∈ (adminBulkDeleteItems db ids).db.items, p.1 ∉ ids)) := by
  constructor
  · refine ⟨by simp [adminDeleteItem, hit], ?_, ?_⟩
    · intro p hp
      have hp2 : p ∈ db.claims.filter (fun q => decide (q.2.item ≠ itemId)) := by
        simpa [adminDeleteItem, hit] using hp
      have := List.of_mem_filter hp2
      simpa using this
    · simp only [adminDeleteItem, hit]
      exact alistFind_filter_key_ne db.items itemId
  · constructor
    · intro p hp
      have hp2 : p ∈ db.claims.filter (fun q => decide (q.2.item ∉ ids)) := by
        simpa [adminBulkDeleteItems, hids] using hp
      have := List.of_mem_filter hp2
      simpa using this
    · intro p hp
      have hp2 : p ∈ db.items.filter (fun q => decide (q.1 ∉ ids)) := by
        simpa [adminBulkDeleteItems, hids] using hp
      have := List.of_mem_filter hp2
      simpa using this

/-- Claim C6: submission succeeds exactly when the item exists, is available,
the claimant is not the reporter, the claimant has no pending claim on the
item, and the message passes the flow message check (the general flow
requires a non-blank trimmed message; the found flow requires a non-empty
message via schema validation and additionally item.type = found with a
populated reporter). On success a pending claim with owner = item.reportedBy
is inserted and the item moves to claim_pending; on failure the state is
unchanged. -/
theorem submit_claim_characterization (db : DB) (itemId userId : Oid)
    (m : String) (pd : Option String) (now : Time) :
    ((submitClaim db itemId userId m pd now).ok = true ↔
        generalSubmitSpec db itemId userId m)
    ∧ (∀ it, findItem db itemId = some it → ¬ strTrim m = "" →
        ¬ it.reportedBy = some userId → it.status = ItemStatus.available →
        hasPendingClaimBy db itemId userId = false →
        findClaim db db.nextClaimId = none →
        findClaim (submitClaim db itemId userId m pd now).db db.nextClaimId
          = some { item := itemId, claimant := userId, owner := it.reportedBy,
                   message := strTrim m,
                   proofDescription := some (pd.getD "No additional proof provided"),
                   status := ClaimStatus.pending, adminResponse := none,
                   resolvedAt := none, resolvedBy := none, createdAt := now }
        ∧ findItem (submitClaim db itemId userId m pd now).db itemId
            = some { it with status := ItemStatus.claim_pending })
    ∧ ((submitClaim db itemId userId m pd now).ok = false →
        (submitClaim db itemId userId m pd now).db = db)
    ∧ ((submitClaimFound db itemId userId m pd now).ok = true ↔
        foundSubmitSpec db itemId userId m)
    ∧ (∀ it reporter, findItem db itemId = some it →
        it.itype = ItemType.found → it.reportedBy = some reporter →
        ¬ reporter = userId → it.status = ItemStatus.available →
        hasPendingClaimBy db itemId userId = false → ¬ m = "" →
        findClaim db db.nextClaimId = none →
        findClaim (submitClaimFound db itemId userId m pd now).db db.nextClaimId
          = some { item := itemId, claimant := userId, owner := some reporter,
                   message := m, proofDescription := pd,
                   status := ClaimStatus.pending, adminResponse := none,
                   resolvedAt := none, resolvedBy := none, createdAt := now }
        ∧ findItem (submitClaimFound db itemId userId m pd now).db itemId
            = some { it with status := ItemStatus.claim_pending })
    ∧ ((submitClaimFound db itemId userId m pd now).ok = false →
        (submitClaimFound db itemId userId m pd now).db = db) := by
  refine ⟨submitClaim_ok_iff db itemId userId m pd now, ?_,
    submitClaim_failure_eq db itemId userId m pd now,
    submitClaimFound_ok_iff db itemId userId m pd now, ?_,
    submitClaimFound_failure_eq db itemId userId m pd now⟩
  · intro it hit hm hrep hst hdup hfresh
    rw [submitClaim_success_eq db itemId userId m pd now it hit hm hrep hst hdup]
    constructor
    · show alistFind (db.claims ++ [(db.nextClaimId, _)]) db.nextClaimId = _
      exact alistFind_append_right db.claims db.nextClaimId _ hfresh
    · rw [findItem_setItem_self]
      show (alistFind db.items itemId).map _ = _
      rw [show alistFind db.items itemId = some it from hit]
      rfl
  · intro it reporter hit hty hrep hne hst hdup hm hfresh
    rw [submitClaimFound_success_eq db itemId userId m pd now it reporter
      hit hty hrep hne hst hdup hm]
    constructor
    · show alistFind (db.claims ++ [(db.nextClaimId, _)]) db.nextClaimId = _
      exact alistFind_append_right db.claims db.nextClaimId _ hfresh
    · rw [findItem_setItem_self]
      show (alistFind db.items itemId).map _ = _
      rw [show alistFind db.items itemId = some it from hit]
      rfl

/-- Witness for submit_claim_characterization: user 4 claims available item 1
successfully through both flows in the no-claims state. -/
theorem submit_claim_characterization_witness :
    (submitClaim dbAvailNoClaims 1 4 "mine" none 40).ok = true
    ∧ findClaim (submitClaim dbAvailNoClaims 1 4 "mine" none 40).db 21
        = some { item := 1, claimant := 4, owner := some 1, message := "mine",
                 proofDescription := some "No additional proof provided",
                 status := ClaimStatus.pending, adminResponse := none,
                 resolvedAt := none, resolvedBy := none, createdAt := 40 }
    ∧ findItem (submitClaim dbAvailNoClaims 1 4 "mine" none 40).db 1
        = some { availItem with status := ItemStatus.claim_pending }
    ∧ (submitClaimFound dbAvailNoClaims 1 4 "mine" none 40).ok = true := by
  have h := submit_claim_characterization dbAvailNoClaims 1 4 "mine" none 40
  have heff := h.2.1 availItem (by decide) (by decide) (by decide) (by decide)
    (by decide) (by decide)
  refine ⟨?_, ?_, heff.2, ?_⟩
  · exact h.1.2 ⟨by decide, availItem, by decide, by decide, by decide, by decide⟩
  · have h1 := heff.1
    rw [show dbAvailNoClaims.nextClaimId = 21 from rfl] at h1
    rw [h1]
    decide
  · exact h.2.2.2.1.2 ⟨availItem, 1, by decide, by decide, by decide, by decide,
      by decide, by decide, by decide⟩

/-- Claim C1 (amended): approval through the owner route or the return route
on a pending claim C referencing item I, by the reporter of I, sets C to
approved with resolvedAt stamped (the resolver field resolvedBy is not
written), rejects every other pending claim on I with resolvedAt stamped,
and sets I to returned with claimedBy = the claimant of C and resolvedDate.
The admin route instead sets C approved with resolvedBy = the acting admin
but no resolution time in a schema field, leaves every other claim — pending
ones included — untouched, and sets I to returned with resolvedDate but
without claimedBy. The found-item route sets only C.status = approved,
likewise leaves every other claim untouched, and sets I to returned with
resolvedDate but without claimedBy. -/
theorem approve_claim_effects_amended :
    (∀ (db : DB) (actorId itemId claimId : Oid) (now : Time) (it : Item)
      (cl : Claim), findItem db itemId = some it →
      findClaim db claimId = some cl → it.reportedBy = some actorId →
      cl.item = itemId → cl.status = ClaimStatus.pending →
      (ownerApproveClaim db actorId itemId claimId now).ok = true
      ∧ findClaim (ownerApproveClaim db actorId itemId claimId now).db claimId
          = some { cl with
                   status := ClaimStatus.approved,
                   adminResponse := some "Claim approved by item owner",
                   resolvedAt := some now }
      ∧ (∀ cid c, ¬ cid = claimId → findClaim db cid = some c →
          c.item = itemId → c.status = ClaimStatus.pending →
          findClaim (ownerApproveClaim db actorId itemId claimId now).db cid
            = some { c with
                     status := ClaimStatus.rejected,
                     adminResponse :=
                       some "Another claim was approved for this item.",
                     resolvedAt := some now })
      ∧ findItem (ownerApproveClaim db actorId itemId claimId now).db itemId
          = some { it with
                   status := ItemStatus.returned,
                   claimedBy := some cl.claimant, resolvedDate := some now })
    ∧ (∀ (db : DB) (actorId itemId claimId : Oid) (now : Time) (it : Item)
      (cl : Claim), findItem db itemId = some it →
      findClaim db claimId = some cl → it.reportedBy = some actorId →
      cl.item = itemId → cl.status = ClaimStatus.pending →
      (ownerReturnClaim db actorId itemId claimId now).ok = true
      ∧ findClaim (ownerReturnClaim db actorId itemId claimId now).db claimId
          = some { cl with
                   status := ClaimStatus.approved,
                   adminResponse := some "Item has been returned to claimant",
                   resolvedAt := some now }
      ∧ (∀ cid c, ¬ cid = claimId → findClaim db cid = some c →
          c.item = itemId → c.status = ClaimStatus.pending →
          findClaim (ownerReturnClaim db actorId itemId claimId now).db cid
            = some { c with
                     status := ClaimStatus.rejected,
                     adminResponse :=
                       some "Item has been returned to another claimant.",
                     resolvedAt := some now })
      ∧ findItem (ownerReturnClaim db actorId itemId claimId now).db itemId
          = some { it with
                   status := ItemStatus.returned,
                   claimedBy := some cl.claimant, resolvedDate := some now })
    ∧ (∀ (db : DB) (actorId claimId : Oid) (now : Time) (cl : Claim)
      (it : Item), findClaim db claimId = some cl →
      findItem db cl.item = some it → cl.status = ClaimStatus.pending →
      (adminApproveClaim db actorId claimId now).ok = true
      ∧ findClaim (adminApproveClaim db actorId claimId now).db claimId
          = some { cl with
                   status := ClaimStatus.approved,
                   resolvedBy := some actorId }
      ∧ (∀ cid c, ¬ cid = claimId → findClaim db cid = some c →
          findClaim (adminApproveClaim db actorId claimId now).db cid = some c)
      ∧ findItem (adminApproveClaim db actorId claimId now).db cl.item
          = some { it with
                   status := ItemStatus.returned,
                   resolvedDate := some now })
    ∧ (∀ (db : DB) (actorId claimId : Oid) (now : Time) (cl : Claim)
      (it : Item), findClaim db claimId = some cl →
      cl.owner = some actorId → findItem db cl.item = some it →
      cl.status = ClaimStatus.pending →
      (finderApproveClaim db actorId claimId now).ok = true
      ∧ findClaim (finderApproveClaim db actorId claimId now).db claimId
          = some { cl with status := ClaimStatus.approved }
      ∧ (∀ cid c, ¬ cid = claimId → findClaim db cid = some c →
          findClaim (finderApproveClaim db actorId claimId now).db cid = some c)
      ∧ findItem (finderApproveClaim db actorId claimId now).db cl.item
          = some { it with
                   status := ItemStatus.returned,
                   resolvedDate := some now }) := by
  refine ⟨?_, ?_, ?_, ?_⟩
  · intro db actorId itemId claimId now it cl hit hcl hrep hci hpend
    rw [ownerApproveClaim_eq db actorId itemId claimId now it cl hit hcl hrep]
    refine ⟨rfl, ?_, ?_, ?_⟩
    · rw [findClaim_setItem, findClaim_rejectOtherPending,
        findClaim_setClaim_self, hcl]
      simp
    · intro cid c hne hc hcitem hcst
      rw [findClaim_setItem, findClaim_rejectOtherPending,
        findClaim_setClaim_ne _ _ _ _ hne, hc]
      simp [hne, hcitem, hcst]
    · rw [findItem_setItem_self, findItem_rejectOtherPending, findItem_setClaim,
        hit]
      rfl
  · intro db actorId itemId claimId now it cl hit hcl hrep hci hpend
    rw [ownerReturnClaim_eq db actorId itemId claimId now it cl hit hcl hrep hci]
    refine ⟨rfl, ?_, ?_, ?_⟩
    · rw [findClaim_rejectOtherPending, findClaim_setItem,
        findClaim_setClaim_self, hcl]
      simp
    · intro cid c hne hc hcitem hcst
      rw [findClaim_rejectOtherPending, findClaim_setItem,
        findClaim_setClaim_ne _ _ _ _ hne, hc]
      simp [hne, hcitem, hcst]
    · rw [findItem_rejectOtherPending, findItem_setItem_self, findItem_setClaim,
        hit]
      rfl
  · intro db actorId claimId now cl it hcl hit hpend
    have hit2 : findItem (setClaim db claimId
        { cl with status := ClaimStatus.approved, resolvedBy := some actorId })
        cl.item = some it := hit
    rw [adminApproveClaim_eq db actorId claimId now cl it hcl hit2]
    refine ⟨rfl, ?_, ?_, ?_⟩
    · rw [findClaim_setItem, findClaim_setClaim_self, hcl]
      rfl
    · intro cid c hne hc
      rw [findClaim_setItem, findClaim_setClaim_ne _ _ _ _ hne, hc]
    · rw [findItem_setItem_self, findItem_setClaim, hit]
      rfl
  · intro db actorId claimId now cl it hcl hown hit hpend
    have hit2 : findItem (setClaim db claimId
        { cl with status := ClaimStatus.approved }) cl.item = some it := hit
    rw [finderApproveClaim_eq db actorId claimId now cl it hcl hown hit2]
    refine ⟨rfl, ?_, ?_, ?_⟩
    · rw [findClaim_setItem, findClaim_setClaim_self, hcl]
      rfl
    · intro cid c hne hc
      rw [findClaim_setItem, findClaim_setClaim_ne _ _ _ _ hne, hc]
    · rw [findItem_setItem_self, findItem_setClaim, hit]
      rfl

/-- Witness for approve_claim_effects_amended: owner 1 approves pending claim
10 on item 1; sibling claim 11 becomes rejected and the item is returned. -/
theorem approve_claim_effects_amended_witness :
    (ownerApproveClaim dbTwoPending 1 1 10 20).ok = true
    ∧ findClaim (ownerApproveClaim dbTwoPending 1 1 10 20).db 11
        = some { pendingClaimB with
                 status := ClaimStatus.rejected,
                 adminResponse :=
                   some "Another claim was approved for this item.",
                 resolvedAt := some 20 }
    ∧ findItem (ownerApproveClaim dbTwoPending 1 1 10 20).db 1
        = some { pendingItem with
                 status := ItemStatus.returned,
                 claimedBy := some 2, resolvedDate := some 20 } := by
  have h := approve_claim_effects_amended.1 dbTwoPending 1 1 10 20 pendingItem
    pendingClaimA (by decide) (by decide) (by decide) (by decide) (by decide)
  exact ⟨h.1, h.2.2.1 11 pendingClaimB (by decide) (by decide) (by decide)
    (by decide), h.2.2.2⟩

/-- Counterexample to claim C1 as stated: approving pending claim 10 of item
1 through the admin route succeeds, yet sibling claim 11 is still pending
afterwards, the item has claimedBy unset, and the approved claim carries no
resolution time (resolvedAt stays none); and even the owner route leaves the
resolver unrecorded (resolvedBy stays none). -/
theorem approve_claim_admin_counterexample :
    (findClaim (ownerApproveClaim dbTwoPending 1 1 10 20).db 10).map
        Claim.resolvedBy = some none
    ∧
    (adminApproveClaim dbTwoPending 9 10 20).ok = true
    ∧ findClaim (adminApproveClaim dbTwoPending 9 10 20).db 11
        = some pendingClaimB
    ∧ pendingClaimB.status = ClaimStatus.pending
    ∧ findItem (adminApproveClaim dbTwoPending 9 10 20).db 1
        = some { pendingItem with
                 status := ItemStatus.returned,
                 resolvedDate := some 20 }
    ∧ ({ pendingItem with
         status := ItemStatus.returned,
         resolvedDate := some 20 } : Item).claimedBy = none
    ∧ (findClaim (adminApproveClaim dbTwoPending 9 10 20).db 10).map
        Claim.resolvedAt = some none := by decide

/-- Claim C3 (amended): rejection through the owner route on a pending claim
C of item I, by the reporter of I, sets C to rejected with resolvedAt and
adminResponse = the supplied reason or the default text (the resolver field
resolvedBy is not written), and I.status becomes available exactly when no
pending claim on I remains afterwards, the item being untouched otherwise.
The found-item route sets only C.status = rejected with no resolution
metadata at all, with the same conditional reversion. The admin route sets C
rejected with resolvedBy = the acting admin but no resolution time in a
schema field, and sets the item to available unconditionally, even while
other pending claims remain on it. -/
theorem reject_claim_effects_amended :
    (∀ (db : DB) (actorId itemId claimId : Oid) (reason : Option String)
      (now : Time) (it : Item) (cl : Claim), findItem db itemId = some it →
      findClaim db claimId = some cl → it.reportedBy = some actorId →
      cl.item = itemId → cl.status = ClaimStatus.pending →
      (ownerRejectClaim db actorId itemId claimId reason now).ok = true
      ∧ findClaim (ownerRejectClaim db actorId itemId claimId reason now).db
          claimId
          = some { cl with
              status := ClaimStatus.rejected,
              adminResponse :=
                some (reason.getD "Claim rejected by item owner."),
              resolvedAt := some now }
      ∧ (countPendingOnItem
            (ownerRejectClaim db actorId itemId claimId reason now).db itemId
            = 0 →
          findItem (ownerRejectClaim db actorId itemId claimId reason now).db
            itemId = some { it with status := ItemStatus.available })
      ∧ (¬ countPendingOnItem
            (ownerRejectClaim db actorId itemId claimId reason now).db itemId
            = 0 →
          findItem (ownerRejectClaim db actorId itemId claimId reason now).db
            itemId = some it))
    ∧ (∀ (db : DB) (actorId claimId : Oid) (cl : Claim) (it : Item),
      findClaim db claimId = some cl → cl.owner = some actorId →
      findItem db cl.item = some it → cl.status = ClaimStatus.pending →
      (finderRejectClaim db actorId claimId).ok = true
      ∧ findClaim (finderRejectClaim db actorId claimId).db claimId
          = some { cl with status := ClaimStatus.rejected }
      ∧ (countPendingOnItem (finderRejectClaim db actorId claimId).db cl.item
            = 0 →
          findItem (finderRejectClaim db actorId claimId).db cl.item
            = some { it with status := ItemStatus.available })
      ∧ (¬ countPendingOnItem (finderRejectClaim db actorId claimId).db cl.item
            = 0 →
          findItem (finderRejectClaim db actorId claimId).db cl.item = some it))
    ∧ (∀ (db : DB) (actorId claimId : Oid) (cl : Claim) (it : Item),
      findClaim db claimId = some cl → findItem db cl.item = some it →
      cl.status = ClaimStatus.pending →
      (adminRejectClaim db actorId claimId).ok = true
      ∧ findClaim (adminRejectClaim db actorId claimId).db claimId
          = some { cl with
              status := ClaimStatus.rejected,
              resolvedBy := some actorId }
      ∧ findItem (adminRejectClaim db actorId claimId).db cl.item
          = some { it with status := ItemStatus.available }) := by
  refine ⟨?_, ?_, ?_⟩
  · intro db actorId itemId claimId reason now it cl hit hcl hrep hci hpend
    rw [ownerRejectClaim_eq db actorId itemId claimId reason now it cl hit hcl
      hrep]
    by_cases h0 : countPendingOnItem
        (setClaim db claimId
          { cl with
            status := ClaimStatus.rejected,
            adminResponse := some (reason.getD "Claim rejected by item owner."),
            resolvedAt := some now })
        itemId = 0
    · refine ⟨rfl, ?_, ?_, ?_⟩
      · simp only [h0, reduceIte]
        rw [findClaim_setItem, findClaim_setClaim_self, hcl]
        rfl
      · intro _
        simp only [h0, reduceIte]
        rw [findItem_setItem_self, findItem_setClaim, hit]
        rfl
      · intro hcontra
        simp only [h0, reduceIte, countPendingOnItem_setItem] at hcontra
        exact (hcontra trivial).elim
    · refine ⟨rfl, ?_, ?_, ?_⟩
      · simp only [h0, reduceIte]
        rw [findClaim_setClaim_self, hcl]
        rfl
      · intro hcontra
        simp only [h0, reduceIte] at hcontra
      · intro _
        simp only [h0, reduceIte]
        rw [findItem_setClaim, hit]
  · intro db actorId claimId cl it hcl hown hit hpend
    have hit2 : findItem (setClaim db claimId
        { cl with status := ClaimStatus.rejected }) cl.item = some it := hit
    rw [finderRejectClaim_eq db actorId claimId cl it hcl hown hit2]
    by_cases h0 : countPendingOnItem
        (setClaim db claimId { cl with status := ClaimStatus.rejected })
        cl.item = 0
    · refine ⟨rfl, ?_, ?_, ?_⟩
      · simp only [h0, reduceIte]
        rw [findClaim_setItem, findClaim_setClaim_self, hcl]
        rfl
      · intro _
        simp only [h0, reduceIte]
        rw [findItem_setItem_self, findItem_setClaim, hit]
        rfl
      · intro hcontra
        simp only [h0, reduceIte, countPendingOnItem_setItem] at hcontra
        exact (hcontra trivial).elim
    · refine ⟨rfl, ?_, ?_, ?_⟩
      · simp only [h0, reduceIte]
        rw [findClaim_setClaim_self, hcl]
        rfl
      · intro hcontra
        simp only [h0, reduceIte] at hcontra
      · intro _
        simp only [h0, reduceIte]
        rw [findItem_setClaim, hit]
  · intro db actorId claimId cl it hcl hit hpend
    have hit2 : findItem (setClaim db claimId
        { cl with
          status := ClaimStatus.rejected,
          resolvedBy := some actorId })
        cl.item = some it := hit
    rw [adminRejectClaim_eq db actorId claimId cl it hcl hit2]
    refine ⟨rfl, ?_, ?_⟩
    · rw [findClaim_setItem, findClaim_setClaim_self, hcl]
      rfl
    · rw [findItem_setItem_self, findItem_setClaim, hit]
      rfl

/-- Witness for reject_claim_effects_amended: owner 1 rejects pending claim
10 on item 1 while claim 11 is still pending; the claim is rejected with the
given reason and the item keeps its claim_pending status. -/
theorem reject_claim_effects_amended_witness :
    (ownerRejectClaim dbTwoPending 1 1 10 (some "not yours") 20).ok = true
    ∧ findClaim (ownerRejectClaim dbTwoPending 1 1 10 (some "not yours") 20).db
        10
        = some { pendingClaimA with
            status := ClaimStatus.rejected,
            adminResponse := some "not yours",
            resolvedAt := some 20 }
    ∧ findItem (ownerRejectClaim dbTwoPending 1 1 10 (some "not yours") 20).db
        1 = some pendingItem := by
  have h := reject_claim_effects_amended.1 dbTwoPending 1 1 10 (some "not yours")
    20 pendingItem pendingClaimA (by decide) (by decide) (by decide) (by decide)
    (by decide)
  exact ⟨h.1, h.2.1, h.2.2.2 (by decide)⟩

/-- Counterexample to claim C3 as stated: rejecting pending claim 10 of item
1 through the admin route succeeds while claim 11 is still pending, yet the
item is set to available (so status = available does not hold iff no pending
claim remains, and the item did not stay unchanged), and the rejected claim
carries no resolution time; the owner route in turn leaves the resolver
unrecorded (resolvedBy stays none). -/
theorem reject_claim_admin_counterexample :
    (findClaim (ownerRejectClaim dbTwoPending 1 1 10 none 20).db 10).map
        Claim.resolvedBy = some none
    ∧
    (adminRejectClaim dbTwoPending 9 10).ok = true
    ∧ findClaim (adminRejectClaim dbTwoPending 9 10).db 11 = some pendingClaimB
    ∧ pendingClaimB.status = ClaimStatus.pending
    ∧ countPendingOnItem (adminRejectClaim dbTwoPending 9 10).db 1 = 1
    ∧ findItem (adminRejectClaim dbTwoPending 9 10).db 1
        = some { pendingItem with status := ItemStatus.available }
    ∧ (findClaim (adminRejectClaim dbTwoPending 9 10).db 10).map
        Claim.resolvedAt = some none := by decide

/-- Claim C4 (amended): an item status is always one of available,
claim_pending, returned, owner_deleted; owner_deleted is written only by the
admin user-deletion bulk update, which bypasses the three-value schema enum.
Submission moves an available item to claim_pending. But the claimed edge
relation does not hold: the owner approve route sets the item to returned
whatever its current status (so e.g. an available item with a rejected claim
jumps directly to returned through a non-administrative route), the owner
reject route reverts the item to available whenever no pending claim remains
— also from returned — and the admin reject route sets it to available
unconditionally. -/
theorem item_status_transitions_amended :
    itemStatusInSchemaEnum ItemStatus.owner_deleted = false
    ∧ (∀ (db : DB) (actorId userId iid : Oid) (it : Item), ¬ userId = actorId →
        findItem db iid = some it → it.reportedBy = some userId →
        findItem (adminDeleteUser db actorId userId).db iid
          = some { it with
              reportedBy := none,
              status := ItemStatus.owner_deleted })
    ∧ (∀ (db : DB) (iid uid : Oid) (m : String) (pd : Option String)
        (now : Time) (it : Item), findItem db iid = some it →
        (submitClaim db iid uid m pd now).ok = true →
        it.status = ItemStatus.available
        ∧ findItem (submitClaim db iid uid m pd now).db iid
            = some { it with status := ItemStatus.claim_pending })
    ∧ (∀ (db : DB) (a iid cid : Oid) (now : Time) (it : Item) (cl : Claim),
        findItem db iid = some it → findClaim db cid = some cl →
        it.reportedBy = some a →
        findItem (ownerApproveClaim db a iid cid now).db iid
          = some { it with
              status := ItemStatus.returned,
              claimedBy := some cl.claimant,
              resolvedDate := some now })
    ∧ (∀ (db : DB) (a iid cid : Oid) (reason : Option String) (now : Time)
        (it : Item) (cl : Claim), findItem db iid = some it →
        findClaim db cid = some cl → it.reportedBy = some a →
        (countPendingOnItem (ownerRejectClaim db a iid cid reason now).db iid
            = 0 →
          findItem (ownerRejectClaim db a iid cid reason now).db iid
            = some { it with status := ItemStatus.available })
        ∧ (¬ countPendingOnItem (ownerRejectClaim db a iid cid reason now).db
            iid = 0 →
          findItem (ownerRejectClaim db a iid cid reason now).db iid = some it))
    ∧ (∀ (db : DB) (a cid : Oid) (cl : Claim) (it : Item),
        findClaim db cid = some cl → findItem db cl.item = some it →
        findItem (adminRejectClaim db a cid).db cl.item
          = some { it with status := ItemStatus.available }) := by
  refine ⟨rfl, ?_, ?_, ?_, ?_, ?_⟩
  · intro db actorId userId iid it hne hit hrepu
    have heq : (adminDeleteUser db actorId userId).db.items
        = alistMap (fun _ itm =>
            if itm.reportedBy = some userId then
              { itm with
                reportedBy := none,
                status := ItemStatus.owner_deleted }
            else itm) db.items := by
      simp [adminDeleteUser, hne]
    show alistFind (adminDeleteUser db actorId userId).db.items iid = _
    rw [heq, alistFind_map]
    rw [show alistFind db.items iid = some it from hit]
    simp [hrepu]
  · intro db iid uid m pd now it hit hok
    have hspec := (submitClaim_ok_iff db iid uid m pd now).mp hok
    obtain ⟨hm, it2, hit2, hrep, hst, hdup⟩ := hspec
    rw [hit] at hit2
    injection hit2 with he
    subst he
    refine ⟨hst, ?_⟩
    rw [submitClaim_success_eq db iid uid m pd now it hit hm hrep hst hdup]
    rw [findItem_setItem_self, findItem_withClaims, hit]
    rfl
  · intro db a iid cid now it cl hit hcl hrep
    rw [ownerApproveClaim_eq db a iid cid now it cl hit hcl hrep]
    rw [findItem_setItem_self, findItem_rejectOtherPending, findItem_setClaim,
      hit]
    rfl
  · intro db a iid cid reason now it cl hit hcl hrep
    rw [ownerRejectClaim_eq db a iid cid reason now it cl hit hcl hrep]
    by_cases h0 : countPendingOnItem
        (setClaim db cid
          { cl with
            status := ClaimStatus.rejected,
            adminResponse := some (reason.getD "Claim rejected by item owner."),
            resolvedAt := some now })
        iid = 0
    · refine ⟨?_, ?_⟩
      · intro _
        simp only [h0, reduceIte]
        rw [findItem_setItem_self, findItem_setClaim, hit]
        rfl
      · intro hcontra
        simp only [h0, reduceIte, countPendingOnItem_setItem] at hcontra
        exact (hcontra trivial).elim
    · refine ⟨?_, ?_⟩
      · intro hcontra
        simp only [h0, reduceIte] at hcontra
      · intro _
        simp only [h0, reduceIte]
        rw [findItem_setClaim, hit]
  · intro db a cid cl it hcl hit
    have hit2 : findItem (setClaim db cid
        { cl with
          status := ClaimStatus.rejected,
          resolvedBy := some a })
        cl.item = some it := hit
    rw [adminRejectClaim_eq db a cid cl it hcl hit2]
    rw [findItem_setItem_self, findItem_setClaim, hit]
    rfl

/-- Witness for item_status_transitions_amended: admin 9 deletes user 1, whose
item 1 becomes owner_deleted with the reporter reference cleared; user 4
submits a claim on available item 1, which becomes claim_pending. -/
theorem item_status_transitions_amended_witness :
    itemStatusInSchemaEnum ItemStatus.owner_deleted = false
    ∧ findItem (adminDeleteUser dbTwoPending 9 1).db 1
        = some { pendingItem with
            reportedBy := none,
            status := ItemStatus.owner_deleted }
    ∧ availItem.status = ItemStatus.available
    ∧ findItem (submitClaim dbAvailNoClaims 1 4 "mine" none 40).db 1
        = some { availItem with status := ItemStatus.claim_pending } := by
  have h := item_status_transitions_amended
  have hsub := h.2.2.1 dbAvailNoClaims 1 4 "mine" none 40 availItem (by decide)
    (by decide)
  exact ⟨h.1, h.2.1 dbTwoPending 9 1 1 pendingItem (by decide) (by decide)
    (by decide), hsub.1, hsub.2⟩

/-- Counterexample to claim C4 as stated: item 1 is available (with rejected
claim 10 on record); the owner approves that rejected claim through the owner
route — not an administrative operation — and the item moves directly from
available to returned, an edge outside the claimed transition relation. -/
theorem item_status_transition_counterexample :
    findItem dbRejectedAvail 1 = some availItem
    ∧ availItem.status = ItemStatus.available
    ∧ (ownerApproveClaim dbRejectedAvail 1 1 10 50).ok = true
    ∧ (findItem (ownerApproveClaim dbRejectedAvail 1 1 10 50).db 1).map
        Item.status = some ItemStatus.returned := by decide

/-- Claim C5 (amended): no approve or reject route checks claim.status.
Given the claim (and, for the owner routes, the item with the actor as its
reporter), approve and reject succeed whatever the current status of the
claim — also when it is already approved or rejected — and re-apply the full
transition; there is no InvalidState error and the claim record is mutated. -/
theorem approve_reject_no_pending_check_amended :
    (∀ (db : DB) (a iid cid : Oid) (now : Time) (it : Item) (cl : Claim),
      findItem db iid = some it → findClaim db cid = some cl →
      it.reportedBy = some a →
      (ownerApproveClaim db a iid cid now).ok = true
      ∧ findClaim (ownerApproveClaim db a iid cid now).db cid
          = some { cl with
              status := ClaimStatus.approved,
              adminResponse := some "Claim approved by item owner",
              resolvedAt := some now })
    ∧ (∀ (db : DB) (a iid cid : Oid) (reason : Option String) (now : Time)
      (it : Item) (cl : Claim), findItem db iid = some it →
      findClaim db cid = some cl → it.reportedBy = some a →
      (ownerRejectClaim db a iid cid reason now).ok = true
      ∧ findClaim (ownerRejectClaim db a iid cid reason now).db cid
          = some { cl with
              status := ClaimStatus.rejected,
              adminResponse :=
                some (reason.getD "Claim rejected by item owner."),
              resolvedAt := some now })
    ∧ (∀ (db : DB) (a cid : Oid) (now : Time) (cl : Claim),
      findClaim db cid = some cl →
      (adminApproveClaim db a cid now).ok = true
      ∧ findClaim (adminApproveClaim db a cid now).db cid
          = some { cl with
              status := ClaimStatus.approved,
              resolvedBy := some a })
    ∧ (∀ (db : DB) (a cid : Oid) (cl : Claim), findClaim db cid = some cl →
      (adminRejectClaim db a cid).ok = true
      ∧ findClaim (adminRejectClaim db a cid).db cid
          = some { cl with
              status := ClaimStatus.rejected,
              resolvedBy := some a }) := by
  refine ⟨?_, ?_, ?_, ?_⟩
  · intro db a iid cid now it cl hit hcl hrep
    rw [ownerApproveClaim_eq db a iid cid now it cl hit hcl hrep]
    refine ⟨rfl, ?_⟩
    rw [findClaim_setItem, findClaim_rejectOtherPending, findClaim_setClaim_self,
      hcl]
    simp
  · intro db a iid cid reason now it cl hit hcl hrep
    rw [ownerRejectClaim_eq db a iid cid reason now it cl hit hcl hrep]
    refine ⟨rfl, ?_⟩
    by_cases h0 : countPendingOnItem
        (setClaim db cid
          { cl with
            status := ClaimStatus.rejected,
            adminResponse := some (reason.getD "Claim rejected by item owner."),
            resolvedAt := some now })
        iid = 0
    · simp only [h0, reduceIte]
      rw [findClaim_setItem, findClaim_setClaim_self, hcl]
      rfl
    · simp only [h0, reduceIte]
      rw [findClaim_setClaim_self, hcl]
      rfl
  · intro db a cid now cl hcl
    unfold adminApproveClaim
    simp only [hcl]
    cases hitem : findItem (setClaim db cid
        { cl with
          status := ClaimStatus.approved,
          resolvedBy := some a })
        cl.item with
    | none =>
      exact ⟨trivial, by rw [findClaim_setClaim_self, hcl]; rfl⟩
    | some it =>
      exact ⟨trivial, by rw [findClaim_setItem, findClaim_setClaim_self, hcl]; rfl⟩
  · intro db a cid cl hcl
    unfold adminRejectClaim
    simp only [hcl]
    cases hitem : findItem (setClaim db cid
        { cl with
          status := ClaimStatus.rejected,
          resolvedBy := some a })
        cl.item with
    | none =>
      exact ⟨trivial, by rw [findClaim_setClaim_self, hcl]; rfl⟩
    | some it =>
      exact ⟨trivial, by rw [findClaim_setItem, findClaim_setClaim_self, hcl]; rfl⟩

/-- Witness for approve_reject_no_pending_check_amended: the owner approves
already-rejected claim 10 and the admin re-rejects it; both succeed. -/
theorem approve_reject_no_pending_check_amended_witness :
    rejectedClaimA.status = ClaimStatus.rejected
    ∧ (ownerApproveClaim dbRejectedAvail 1 1 10 50).ok = true
    ∧ findClaim (ownerApproveClaim dbRejectedAvail 1 1 10 50).db 10
        = some { rejectedClaimA with
            status := ClaimStatus.approved,
            adminResponse := some "Claim approved by item owner",
            resolvedAt := some 50 }
    ∧ (adminRejectClaim dbRejectedAvail 9 10).ok = true := by
  have h := approve_reject_no_pending_check_amended
  have h1 := h.1 dbRejectedAvail 1 1 10 50 availItem rejectedClaimA (by decide)
    (by decide) (by decide)
  exact ⟨by decide, h1.1, h1.2, (h.2.2.2 dbRejectedAvail 9 10 rejectedClaimA
    (by decide)).1⟩

/-- Counterexample to claim C5 as stated: claim 10 is already rejected, yet
invoking the owner approve route on it succeeds (no InvalidState error), the
claim becomes approved, and the store changes. -/
theorem approve_resolved_claim_counterexample :
    rejectedClaimA.status = ClaimStatus.rejected
    ∧ findClaim dbRejectedAvail 10 = some rejectedClaimA
    ∧ (ownerApproveClaim dbRejectedAvail 1 1 10 50).ok = true
    ∧ (findClaim (ownerApproveClaim dbRejectedAvail 1 1 10 50).db 10).map
        Claim.status = some ClaimStatus.approved
    ∧ ¬ (ownerApproveClaim dbRejectedAvail 1 1 10 50).db = dbRejectedAvail := by
  decide

theorem alistSet_keys {α : Type} (l : List (Oid × α)) (k : Oid) (v : α) :
    (alistSet l k v).map Prod.fst = l.map Prod.fst :=
  alistMap_keys _ l

theorem alistSet_mem_decomp {α : Type} {l : List (Oid × α)} {k : Oid} {v : α}
    {p : Oid × α} (hp : p ∈ alistSet l k v) :
    ∃ q ∈ l, p = (q.1, if q.1 = k then v else q.2) :=
  alistMap_mem_decomp hp

theorem claimKeysWF_setClaim (db : DB) (cid : Oid) (c : Claim)
    (hwf : ClaimKeysWF db) : ClaimKeysWF (setClaim db cid c) := by
  constructor
  · show ((alistSet db.claims cid c).map Prod.fst).Nodup
    rw [alistSet_keys]
    exact hwf.1
  · intro p hp
    obtain ⟨q, hq, hre⟩ := alistSet_mem_decomp hp
    have := hwf.2 q hq
    rw [hre]
    exact this

theorem inv_preserved_insertPending (db : DB) (itemId : Oid) (newCl : Claim)
    (itN : Item) (it : Item) (hit : findItem db itemId = some it)
    (hst : it.status = ItemStatus.available) (hnewItem : newCl.item = itemId)
    (hnewSt : newCl.status = ClaimStatus.pending)
    (hwf : ClaimKeysWF db) (hinv : ApprovalExclusivityInv db) :
    ClaimKeysWF (setItem
      { db with
        claims := db.claims ++ [(db.nextClaimId, newCl)],
        nextClaimId := db.nextClaimId + 1 } itemId itN)
    ∧ ApprovalExclusivityInv (setItem
      { db with
        claims := db.claims ++ [(db.nextClaimId, newCl)],
        nextClaimId := db.nextClaimId + 1 } itemId itN) := by
  have happItem : countApprovedOnItem db itemId = 0 := by
    rcases Nat.eq_zero_or_pos (countApprovedOnItem db itemId) with h0 | hpos
    · exact h0
    · exact absurd hst (((hinv itemId).2 hpos).2 it hit)
  have hA : ∀ I, countApprovedOnItem (setItem
      { db with
        claims := db.claims ++ [(db.nextClaimId, newCl)],
        nextClaimId := db.nextClaimId + 1 } itemId itN) I
      = countApprovedOnItem db I := by
    intro I
    show countBy (approvedOn I) (db.claims ++ [(db.nextClaimId, newCl)]) = _
    rw [countBy_append]
    have hn : approvedOn I newCl = false := by simp [approvedOn, hnewSt]
    simp [hn]
    rfl
  constructor
  · constructor
    · show ((db.claims ++ [(db.nextClaimId, newCl)]).map Prod.fst).Nodup
      rw [List.map_append]
      refine List.Nodup.append hwf.1 (List.nodup_singleton _) ?_
      intro a ha hb
      simp only [List.map_cons, List.map_nil, List.mem_cons,
        List.not_mem_nil, or_false] at hb
      obtain ⟨p, hp, hpa⟩ := List.mem_map.mp ha
      have hlt : a < db.nextClaimId := hpa ▸ hwf.2 p hp
      rw [hb] at hlt
      exact lt_irrefl _ hlt
    · intro p hp
      show p.1 < db.nextClaimId + 1
      rcases List.mem_append.mp hp with h1 | h2
      · exact Nat.lt_succ_of_lt (hwf.2 p h1)
      · simp only [List.mem_singleton] at h2
        rw [h2]
        exact Nat.lt_succ_self _
  · intro I
    by_cases hI : I = itemId
    · subst hI
      refine ⟨by rw [hA, happItem]; omega, ?_⟩
      intro h1
      rw [hA, happItem] at h1
      omega
    · refine ⟨by rw [hA]; exact (hinv I).1, ?_⟩
      intro h1
      rw [hA] at h1
      obtain ⟨hp0, hstat⟩ := (hinv I).2 h1
      constructor
      · show countBy (pendingOn I) (db.claims ++ [(db.nextClaimId, newCl)]) = 0
        rw [countBy_append]
        have hiid : itemId ≠ I := fun h => hI h.symm
        have hn : pendingOn I newCl = false := by
          simp [pendingOn, hnewItem, hiid]
        rw [hn]
        simp
        rw [← countPendingOnItem_eq_countBy]
        exact hp0
      · intro it2 hit2
        rw [findItem_setItem_ne _ _ _ _ hI, findItem_withClaims] at hit2
        exact hstat it2 hit2

theorem inv_preserved_approve (db : DB) (iid cid : Oid) (resp : String)
    (now : Time) (cl cl1 : Claim) (itN : Item)
    (hcl : findClaim db cid = some cl)
    (hpend : cl.status = ClaimStatus.pending) (hci : cl.item = iid)
    (h1item : cl1.item = iid) (h1st : cl1.status = ClaimStatus.approved)
    (hitN : itN.status = ItemStatus.returned)
    (hwf : ClaimKeysWF db) (hinv : ApprovalExclusivityInv db) :
    ClaimKeysWF (setItem
      (rejectOtherPending (setClaim db cid cl1) iid cid resp now) iid itN)
    ∧ ApprovalExclusivityInv (setItem
      (rejectOtherPending (setClaim db cid cl1) iid cid resp now) iid itN) := by
  have hpendpos : 1 ≤ countPendingOnItem db iid := by
    have hmem := alistFind_mem hcl
    have ht : pendingOn iid cl = true := by simp [pendingOn, hci, hpend]
    rw [countPendingOnItem_eq_countBy]
    exact countBy_pos_of_mem _ hmem ht
  have happ0 : countApprovedOnItem db iid = 0 := by
    rcases Nat.eq_zero_or_pos (countApprovedOnItem db iid) with h0 | hpos
    · exact h0
    · have := ((hinv iid).2 hpos).1
      omega
  have hmapA : ∀ I, countBy (approvedOn I)
      (rejectOtherPending (setClaim db cid cl1) iid cid resp now).claims
      = countBy (approvedOn I) (alistSet db.claims cid cl1) := by
    intro I
    rw [rejectOtherPending_claims]
    refine countBy_alistMap_pointwise _ _ _ (fun k c => ?_)
    by_cases hc : k ≠ cid ∧ c.item = iid ∧ c.status = ClaimStatus.pending
    · simp [hc, approvedOn, hc.2.2]
    · simp [hc]
  constructor
  · constructor
    · show (((rejectOtherPending (setClaim db cid cl1) iid cid resp
          now).claims).map Prod.fst).Nodup
      rw [rejectOtherPending_claims, alistMap_keys]
      show ((alistSet db.claims cid cl1).map Prod.fst).Nodup
      rw [alistSet_keys]
      exact hwf.1
    · intro p hp
      have hp2 : p ∈ (rejectOtherPending (setClaim db cid cl1) iid cid resp
          now).claims := hp
      rw [rejectOtherPending_claims] at hp2
      obtain ⟨q, hq, hre⟩ := alistMap_mem_decomp hp2
      obtain ⟨r, hr, hre2⟩ := alistSet_mem_decomp hq
      have hkey : p.1 = r.1 := by rw [hre, hre2]
      show p.1 < db.nextClaimId
      rw [hkey]
      exact hwf.2 r hr
  · intro I
    by_cases hI : iid = I
    · subst hI
      have hclF : approvedOn iid cl = false := by simp [approvedOn, hpend]
      have hcl1T : approvedOn iid cl1 = true := by
        simp [approvedOn, h1item, h1st]
      have hset := countBy_alistSet (approvedOn iid) cl1 hwf.1 hcl
      rw [hclF, hcl1T] at hset
      simp at hset
      have happdb : countBy (approvedOn iid) db.claims = 0 := by
        rw [← countApprovedOnItem_eq_countBy]
        exact happ0
      have hAtotal : countApprovedOnItem (setItem
          (rejectOtherPending (setClaim db cid cl1) iid cid resp now) iid itN)
          iid = 1 := by
        rw [countApprovedOnItem_eq_countBy]
        show countBy (approvedOn iid)
          (rejectOtherPending (setClaim db cid cl1) iid cid resp now).claims = 1
        rw [hmapA iid, hset, happdb]
      refine ⟨by rw [hAtotal], ?_⟩
      intro h1
      constructor
      · show countBy (pendingOn iid)
          (rejectOtherPending (setClaim db cid cl1) iid cid resp now).claims = 0
        rw [rejectOtherPending_claims]
        refine countBy_eq_zero _ _ (fun p hp => ?_)
        obtain ⟨q, hq, hre⟩ := alistMap_mem_decomp hp
        rw [hre]
        by_cases hqk : q.1 = cid
        · have hval : q.2 = cl1 := alistSet_value_at_key hq hqk
          simp [hqk, hval, pendingOn, h1st]
        · by_cases hcond : q.2.item = iid ∧ q.2.status = ClaimStatus.pending
          · simp [hqk, hcond, pendingOn]
          · simp [hqk, hcond, pendingOn]
      · intro it2 hit2
        rw [findItem_setItem_self] at hit2
        obtain ⟨it0, _, hfa⟩ := Option.map_eq_some'.mp hit2
        rw [← hfa]
        simp [hitN]
    · have hiid : iid ≠ I := hI
      have hclF : approvedOn I cl = false := by simp [approvedOn, hci, hiid]
      have hcl1F : approvedOn I cl1 = false := by
        simp [approvedOn, h1item, hiid]
      have hset := countBy_alistSet (approvedOn I) cl1 hwf.1 hcl
      rw [hclF, hcl1F] at hset
      simp at hset
      have hAeq : countApprovedOnItem (setItem
          (rejectOtherPending (setClaim db cid cl1) iid cid resp now) iid itN)
          I = countApprovedOnItem db I := by
        rw [countApprovedOnItem_eq_countBy]
        show countBy (approvedOn I)
          (rejectOtherPending (setClaim db cid cl1) iid cid resp now).claims = _
        rw [hmapA I, hset, ← countApprovedOnItem_eq_countBy]
      have hclPF : pendingOn I cl = false := by simp [pendingOn, hci, hiid]
      have hcl1PF : pendingOn I cl1 = false := by
        simp [pendingOn, h1item, hiid]
      have hsetP := countBy_alistSet (pendingOn I) cl1 hwf.1 hcl
      rw [hclPF, hcl1PF] at hsetP
      simp at hsetP
      have hmapP : countBy (pendingOn I)
          (rejectOtherPending (setClaim db cid cl1) iid cid resp now).claims
          = countBy (pendingOn I) (alistSet db.claims cid cl1) := by
        rw [rejectOtherPending_claims]
        refine countBy_alistMap_pointwise _ _ _ (fun k c => ?_)
        by_cases hc : k ≠ cid ∧ c.item = iid ∧ c.status = ClaimStatus.pending
        · simp [hc, pendingOn, hc.2.1, hiid]
        · simp [hc]
      have hPeq : countPendingOnItem (setItem
          (rejectOtherPending (setClaim db cid cl1) iid cid resp now) iid itN)
          I = countPendingOnItem db I := by
        rw [countPendingOnItem_eq_countBy]
        show countBy (pendingOn I)
          (rejectOtherPending (setClaim db cid cl1) iid cid resp now).claims = _
        rw [hmapP, hsetP, ← countPendingOnItem_eq_countBy]
      refine ⟨by rw [hAeq]; exact (hinv I).1, ?_⟩
      intro h1
      rw [hAeq] at h1
      obtain ⟨hp0, hstat⟩ := (hinv I).2 h1
      refine ⟨by rw [hPeq]; exact hp0, ?_⟩
      intro it2 hit2
      rw [findItem_setItem_ne _ _ _ _ (fun h => hI h.symm)] at hit2
      exact hstat it2 hit2

theorem inv_preserved_rejectClaim (db : DB) (cid : Oid) (cl clR : Claim)
    (hcl : findClaim db cid = some cl)
    (hpend : cl.status = ClaimStatus.pending)
    (hRst : clR.status = ClaimStatus.rejected)
    (hwf : ClaimKeysWF db) (hinv : ApprovalExclusivityInv db) :
    ClaimKeysWF (setClaim db cid clR)
    ∧ ApprovalExclusivityInv (setClaim db cid clR) := by
  refine ⟨claimKeysWF_setClaim db cid clR hwf, ?_⟩
  intro I
  have hclA : approvedOn I cl = false := by simp [approvedOn, hpend]
  have hRA : approvedOn I clR = false := by simp [approvedOn, hRst]
  have hAeq : countApprovedOnItem (setClaim db cid clR) I
      = countApprovedOnItem db I := by
    rw [countApprovedOnItem_eq_countBy, countApprovedOnItem_eq_countBy]
    have heq := countBy_alistSet (approvedOn I) clR hwf.1 hcl
    rw [hclA, hRA] at heq
    simpa using heq
  refine ⟨by rw [hAeq]; exact (hinv I).1, ?_⟩
  intro h1
  rw [hAeq] at h1
  obtain ⟨hp0, hstat⟩ := (hinv I).2 h1
  have hclP : pendingOn I cl = false := by
    by_cases hii : cl.item = I
    · exfalso
      have hmem := alistFind_mem hcl
      have ht : pendingOn I cl = true := by simp [pendingOn, hii, hpend]
      have hpos := countBy_pos_of_mem _ hmem ht
      rw [← countPendingOnItem_eq_countBy] at hpos
      omega
    · simp [pendingOn, hii]
  have hRP : pendingOn I clR = false := by simp [pendingOn, hRst]
  have hPeq : countPendingOnItem (setClaim db cid clR) I
      = countPendingOnItem db I := by
    rw [countPendingOnItem_eq_countBy, countPendingOnItem_eq_countBy]
    have heq := countBy_alistSet (pendingOn I) clR hwf.1 hcl
    rw [hclP, hRP] at heq
    simpa using heq
  exact ⟨by rw [hPeq]; exact hp0, fun it2 hit2 => hstat it2 hit2⟩

theorem inv_preserved_setAvailable (db : DB) (iid : Oid) (itA : Item)
    (h0 : countApprovedOnItem db iid = 0)
    (hwf : ClaimKeysWF db) (hinv : ApprovalExclusivityInv db) :
    ClaimKeysWF (setItem db iid itA)
    ∧ ApprovalExclusivityInv (setItem db iid itA) := by
  refine ⟨hwf, ?_⟩
  intro I
  have hAeq : countApprovedOnItem (setItem db iid itA) I
      = countApprovedOnItem db I := rfl
  refine ⟨by rw [hAeq]; exact (hinv I).1, ?_⟩
  intro h1
  rw [hAeq] at h1
  obtain ⟨hp0, hstat⟩ := (hinv I).2 h1
  refine ⟨hp0, ?_⟩
  intro it2 hit2
  by_cases hI : I = iid
  · subst hI
    omega
  · rw [findItem_setItem_ne _ _ _ _ hI] at hit2
    exact hstat it2 hit2

theorem approvedZero_after_reject (db : DB) (cid : Oid) (cl clR : Claim)
    (I : Oid) (hcl : findClaim db cid = some cl)
    (hpend : cl.status = ClaimStatus.pending) (hci : cl.item = I)
    (hRst : clR.status = ClaimStatus.rejected)
    (hwf : ClaimKeysWF db) (hinv : ApprovalExclusivityInv db) :
    countApprovedOnItem (setClaim db cid clR) I = 0 := by
  have happdb : countApprovedOnItem db I = 0 := by
    rcases Nat.eq_zero_or_pos (countApprovedOnItem db I) with hz | hpos
    · exact hz
    · have hpend1 : 1 ≤ countPendingOnItem db I := by
        have hmem := alistFind_mem hcl
        have ht : pendingOn I cl = true := by simp [pendingOn, hci, hpend]
        rw [countPendingOnItem_eq_countBy]
        exact countBy_pos_of_mem _ hmem ht
      have := ((hinv I).2 hpos).1
      omega
  rw [countApprovedOnItem_eq_countBy]
  have heq := countBy_alistSet (approvedOn I) clR hwf.1 hcl
  rw [show approvedOn I cl = false from by simp [approvedOn, hpend],
    show approvedOn I clR = false from by simp [approvedOn, hRst]] at heq
  simp at heq
  show countBy (approvedOn I) (alistSet db.claims cid clR) = 0
  rw [heq, ← countApprovedOnItem_eq_countBy]
  exact happdb

theorem lifecycleStep_preserves {db db' : DB} (hstep : LifecycleStep db db')
    (hwf : ClaimKeysWF db) (hinv : ApprovalExclusivityInv db) :
    ClaimKeysWF db' ∧ ApprovalExclusivityInv db' := by
  cases hstep with
  | submit itemId userId m pd now =>
    cases hok : (submitClaim db itemId userId m pd now).ok with
    | false =>
      rw [submitClaim_failure_eq db itemId userId m pd now hok]
      exact ⟨hwf, hinv⟩
    | true =>
      obtain ⟨hm, it, hit, hrep, hst, hdup⟩ :=
        (submitClaim_ok_iff db itemId userId m pd now).mp hok
      rw [submitClaim_success_eq db itemId userId m pd now it hit hm hrep hst
        hdup]
      exact inv_preserved_insertPending db itemId _
        { it with status := ItemStatus.claim_pending } it hit hst rfl rfl hwf
        hinv
  | submitFound itemId userId m pd now =>
    cases hok : (submitClaimFound db itemId userId m pd now).ok with
    | false =>
      rw [submitClaimFound_failure_eq db itemId userId m pd now hok]
      exact ⟨hwf, hinv⟩
    | true =>
      obtain ⟨it, reporter, hit, hty, hrep, hne, hst, hdup, hm⟩ :=
        (submitClaimFound_ok_iff db itemId userId m pd now).mp hok
      rw [submitClaimFound_success_eq db itemId userId m pd now it reporter hit
        hty hrep hne hst hdup hm]
      exact inv_preserved_insertPending db itemId _
        { it with status := ItemStatus.claim_pending } it hit hst rfl rfl hwf
        hinv
  | ownerApprove a iid cid now cl hcl hpend hci =>
    cases hitF : findItem db iid with
    | none =>
      have hfail : ownerApproveClaim db a iid cid now = fail db := by
        simp [ownerApproveClaim, hitF, hcl]
      rw [hfail]
      exact ⟨hwf, hinv⟩
    | some it =>
      cases hrepF : it.reportedBy with
      | none =>
        have hfail : ownerApproveClaim db a iid cid now = fail db := by
          simp [ownerApproveClaim, hitF, hcl, hrepF]
        rw [hfail]
        exact ⟨hwf, hinv⟩
      | some r =>
        by_cases hra : r = a
        · subst hra
          rw [ownerApproveClaim_eq db r iid cid now it cl hitF hcl hrepF]
          exact inv_preserved_approve db iid cid
            "Another claim was approved for this item." now cl
            { cl with
              status := ClaimStatus.approved,
              adminResponse := some "Claim approved by item owner",
              resolvedAt := some now }
            { it with
              status := ItemStatus.returned,
              claimedBy := some cl.claimant,
              resolvedDate := some now }
            hcl hpend hci hci rfl rfl hwf hinv
        · have hfail : ownerApproveClaim db a iid cid now = fail db := by
            simp [ownerApproveClaim, hitF, hcl, hrepF, hra]
          rw [hfail]
          exact ⟨hwf, hinv⟩
  | ownerReturn a iid cid now cl hcl hpend =>
    cases hitF : findItem db iid with
    | none =>
      have hfail : ownerReturnClaim db a iid cid now = fail db := by
        simp [ownerReturnClaim, hitF, hcl]
      rw [hfail]
      exact ⟨hwf, hinv⟩
    | some it =>
      cases hrepF : it.reportedBy with
      | none =>
        have hfail : ownerReturnClaim db a iid cid now = fail db := by
          simp [ownerReturnClaim, hitF, hcl, hrepF]
        rw [hfail]
        exact ⟨hwf, hinv⟩
      | some r =>
        by_cases hra : r = a
        · subst hra
          by_cases hci : cl.item = iid
          · rw [ownerReturnClaim_eq db r iid cid now it cl hitF hcl hrepF hci]
            exact inv_preserved_approve db iid cid
              "Item has been returned to another claimant." now cl
              { cl with
                status := ClaimStatus.approved,
                adminResponse := some "Item has been returned to claimant",
                resolvedAt := some now }
              { it with
                status := ItemStatus.returned,
                claimedBy := some cl.claimant,
                resolvedDate := some now }
              hcl hpend hci hci rfl rfl hwf hinv
          · have hfail : ownerReturnClaim db r iid cid now = fail db := by
              simp [ownerReturnClaim, hitF, hcl, hrepF, hci]
            rw [hfail]
            exact ⟨hwf, hinv⟩
        · have hfail : ownerReturnClaim db a iid cid now = fail db := by
            simp [ownerReturnClaim, hitF, hcl, hrepF, hra]
          rw [hfail]
          exact ⟨hwf, hinv⟩
  | ownerReject a iid cid reason now cl hcl hpend hci =>
    cases hitF : findItem db iid with
    | none =>
      have hfail : ownerRejectClaim db a iid cid reason now = fail db := by
        simp [ownerRejectClaim, hitF, hcl]
      rw [hfail]
      exact ⟨hwf, hinv⟩
    | some it =>
      cases hrepF : it.reportedBy with
      | none =>
        have hfail : ownerRejectClaim db a iid cid reason now = fail db := by
          simp [ownerRejectClaim, hitF, hcl, hrepF]
        rw [hfail]
        exact ⟨hwf, hinv⟩
      | some r =>
        by_cases hra : r = a
        · subst hra
          rw [ownerRejectClaim_eq db r iid cid reason now it cl hitF hcl hrepF]
          have hbase := inv_preserved_rejectClaim db cid cl
            { cl with
              status := ClaimStatus.rejected,
              adminResponse :=
                some (reason.getD "Claim rejected by item owner."),
              resolvedAt := some now }
            hcl hpend rfl hwf hinv
          by_cases h0 : countPendingOnItem (setClaim db cid
              { cl with
                status := ClaimStatus.rejected,
                adminResponse :=
                  some (reason.getD "Claim rejected by item owner."),
                resolvedAt := some now }) iid = 0
          · simp only [h0, reduceIte]
            have happ := approvedZero_after_reject db cid cl
              { cl with
                status := ClaimStatus.rejected,
                adminResponse :=
                  some (reason.getD "Claim rejected by item owner."),
                resolvedAt := some now }
              iid hcl hpend hci rfl hwf hinv
            exact inv_preserved_setAvailable _ iid _ happ hbase.1 hbase.2
          · simp only [h0, reduceIte]
            exact hbase
        · have hfail : ownerRejectClaim db a iid cid reason now = fail db := by
            simp [ownerRejectClaim, hitF, hcl, hrepF, hra]
          rw [hfail]
          exact ⟨hwf, hinv⟩
  | finderReject a cid cl hcl hpend =>
    cases hownF : cl.owner with
    | none =>
      have hfail : finderRejectClaim db a cid = fail db := by
        simp [finderRejectClaim, hcl, hownF]
      rw [hfail]
      exact ⟨hwf, hinv⟩
    | some o =>
      by_cases hoa : o = a
      · subst hoa
        have hbase := inv_preserved_rejectClaim db cid cl
          { cl with status := ClaimStatus.rejected } hcl hpend rfl hwf hinv
        cases hitF : findItem (setClaim db cid
            { cl with status := ClaimStatus.rejected }) cl.item with
        | none =>
          have hres : finderRejectClaim db o cid
              = { ok := false,
                  db := setClaim db cid
                    { cl with status := ClaimStatus.rejected } } := by
            simp only [hownF] at hitF
            simp [finderRejectClaim, hcl, hownF, hitF]
          rw [hres]
          exact hbase
        | some it =>
          rw [finderRejectClaim_eq db o cid cl it hcl hownF hitF]
          by_cases h0 : countPendingOnItem (setClaim db cid
              { cl with status := ClaimStatus.rejected }) cl.item = 0
          · simp only [h0, reduceIte]
            have happ := approvedZero_after_reject db cid cl
              { cl with status := ClaimStatus.rejected } cl.item hcl hpend rfl
              rfl hwf hinv
            exact inv_preserved_setAvailable _ cl.item _ happ hbase.1 hbase.2
          · simp only [h0, reduceIte]
            exact hbase
      · have hfail : finderRejectClaim db a cid = fail db := by
          simp [finderRejectClaim, hcl, hownF, hoa]
        rw [hfail]
        exact ⟨hwf, hinv⟩

/-- Claim C2 (amended): in every state reachable — from a wellformed store
satisfying the exclusivity invariant (distinct claim ids below the next-id
counter; at most one approved claim per item id, and an item id with an
approved claim has neither a pending claim nor an available item record) —
by claim submissions through either flow together with approve, reject and
return through the owner and finder routes applied to claims that are
pending and reference the route item, each item has at most one approved
claim. The restriction on the approve/reject steps is forced: the admin and
found-item approve routes reject no sibling pending claims, the admin
reject route reopens the item unconditionally, and every route accepts
already-resolved claims; through exactly those gaps the counterexample
reaches a state with two approved claims on one item. -/
theorem at_most_one_approved_per_item_amended (dbi dbf : DB)
    (hwf : ClaimKeysWF dbi) (hinv : ApprovalExclusivityInv dbi)
    (hreach : LifecycleReachable dbi dbf) (I : Oid) :
    countApprovedOnItem dbf I ≤ 1 := by
  suffices h : ClaimKeysWF dbf ∧ ApprovalExclusivityInv dbf by exact (h.2 I).1
  induction hreach with
  | refl => exact ⟨hwf, hinv⟩
  | step d2 d3 hr hs ih => exact lifecycleStep_preserves hs ih.1 ih.2

/-- Witness for at_most_one_approved_per_item_amended: from the clean
single-item store, user 4 submits claim 21, the owner rejects it, user 5
submits claim 22, the owner approves it — all allowed steps — and item 1
carries at most one approved claim. -/
theorem at_most_one_approved_per_item_amended_witness :
    ClaimKeysWF dbAvailNoClaims
    ∧ ApprovalExclusivityInv dbAvailNoClaims
    ∧ countApprovedOnItem exDb4 1 ≤ 1 := by
  have hwf : ClaimKeysWF dbAvailNoClaims := by
    constructor
    · simp [dbAvailNoClaims]
    · intro p hp
      simp [dbAvailNoClaims] at hp
  have hinv : ApprovalExclusivityInv dbAvailNoClaims := by
    intro I
    constructor
    · simp [countApprovedOnItem, dbAvailNoClaims]
    · intro h1
      simp [countApprovedOnItem, dbAvailNoClaims] at h1
  have s1 : LifecycleStep dbAvailNoClaims exDb1 :=
    LifecycleStep.submit dbAvailNoClaims 1 4 "mine" none 40
  have s2 : LifecycleStep exDb1 exDb2 :=
    LifecycleStep.ownerReject exDb1 1 1 21 none 41 exClaimA (by decide)
      (by decide) (by decide)
  have s3 : LifecycleStep exDb2 exDb3 :=
    LifecycleStep.submit exDb2 1 5 "mine too" none 42
  have s4 : LifecycleStep exDb3 exDb4 :=
    LifecycleStep.ownerApprove exDb3 1 1 22 43 exClaimB (by decide)
      (by decide) (by decide)
  have hreach : LifecycleReachable dbAvailNoClaims exDb4 :=
    LifecycleReachable.step _ _ _
      (LifecycleReachable.step _ _ _
        (LifecycleReachable.step _ _ _
          (LifecycleReachable.step _ _ _ (LifecycleReachable.refl _) s1) s2)
        s3) s4
  exact ⟨hwf, hinv,
    at_most_one_approved_per_item_amended dbAvailNoClaims exDb4 hwf hinv
      hreach 1⟩

/-- Counterexample to claim C2 as stated: from the clean single-item store,
the route calls submit (claim 21), owner-reject 21, submit (claim 22),
owner-approve 22, owner-approve 21 — each an ordinary handler invocation
that succeeds — end with the two claims 21 and 22 both approved on item 1:
re-approving the rejected claim 21 is accepted (no status check) and its
sibling 22, being approved rather than pending, is not rejected by the
sibling sweep. -/
theorem two_approved_claims_reachable_counterexample :
    (submitClaim dbAvailNoClaims 1 4 "mine" none 40).ok = true
    ∧ (ownerRejectClaim exDb1 1 1 21 none 41).ok = true
    ∧ (submitClaim exDb2 1 5 "mine too" none 42).ok = true
    ∧ (ownerApproveClaim exDb3 1 1 22 43).ok = true
    ∧ (ownerApproveClaim exDb4 1 1 21 44).ok = true
    ∧ (findClaim exDb5 21).map Claim.status = some ClaimStatus.approved
    ∧ (findClaim exDb5 22).map Claim.status = some ClaimStatus.approved
    ∧ countApprovedOnItem exDb5 1 = 2 := by decide

/-- Claim C9 (amended): the route middleware (requireAuth and isLoggedIn)
only requires a session user and never consults the account flags;
canPerformAction implements the suspended, banned and unverified refusal but
no route calls it. Hence a suspended or banned user is not refused: the
submission, approve and reject operations succeed and mutate state exactly
as for any other actor. -/
theorem suspended_user_not_refused_amended (db : DB) (uid : Oid) (u : User)
    (hu : findUser db uid = some u)
    (hflag : u.isSuspended = true ∨ u.isBanned = true) :
    (canPerformAction u).allowed = false
    ∧ requireAuthOk (some uid) = true
    ∧ (∀ (itemId : Oid) (m : String) (pd : Option String) (now : Time)
        (it : Item), findItem db itemId = some it → ¬ strTrim m = "" →
        ¬ it.reportedBy = some uid → it.status = ItemStatus.available →
        hasPendingClaimBy db itemId uid = false →
        (submitClaim db itemId uid m pd now).ok = true
        ∧ ¬ (submitClaim db itemId uid m pd now).db = db)
    ∧ (∀ (itemId claimId : Oid) (now : Time) (it : Item) (cl : Claim),
        findItem db itemId = some it → findClaim db claimId = some cl →
        it.reportedBy = some uid →
        (ownerApproveClaim db uid itemId claimId now).ok = true
        ∧ (ownerRejectClaim db uid itemId claimId none now).ok = true) := by
  refine ⟨?_, rfl, ?_, ?_⟩
  · by_cases hb : u.isBanned
    · simp [canPerformAction, hb]
    · have hs : u.isSuspended = true := by
        rcases hflag with hs | hb2
        · exact hs
        · exact absurd hb2 (by simpa using hb)
      simp [canPerformAction, hb, hs]
  · intro itemId m pd now it hit hm hrep hst hdup
    refine ⟨(submitClaim_ok_iff db itemId uid m pd now).mpr
      ⟨hm, it, hit, hrep, hst, hdup⟩, ?_⟩
    rw [submitClaim_success_eq db itemId uid m pd now it hit hm hrep hst hdup]
    intro hcontra
    have hnext := congrArg DB.nextClaimId hcontra
    simp [setItem] at hnext
  · intro itemId claimId now it cl hit hcl hrep
    constructor
    · rw [ownerApproveClaim_eq db uid itemId claimId now it cl hit hcl hrep]
    · rw [ownerRejectClaim_eq db uid itemId claimId none now it cl hit hcl hrep]

/-- Witness for suspended_user_not_refused_amended: suspended user 4 submits
a claim on available item 1 and the submission succeeds, changing the
store. -/
theorem suspended_user_not_refused_amended_witness :
    (canPerformAction suspendedU).allowed = false
    ∧ (submitClaim dbAvailNoClaims 1 4 "mine" none 40).ok = true
    ∧ ¬ (submitClaim dbAvailNoClaims 1 4 "mine" none 40).db
        = dbAvailNoClaims := by
  have h := suspended_user_not_refused_amended dbAvailNoClaims 4 suspendedU
    (by decide) (Or.inl (by decide))
  have hsub := h.2.2.1 1 "mine" none 40 availItem (by decide) (by decide)
    (by decide) (by decide) (by decide)
  exact ⟨h.1, hsub.1, hsub.2⟩

/-- Counterexample to claim C9 as stated: user 4 is suspended, yet the
claim-submission operation is not refused — it succeeds and creates claim 21
in the store. -/
theorem suspended_user_submit_counterexample :
    suspendedU.isSuspended = true
    ∧ findUser dbAvailNoClaims 4 = some suspendedU
    ∧ (submitClaim dbAvailNoClaims 1 4 "mine" none 40).ok = true
    ∧ (findClaim (submitClaim dbAvailNoClaims 1 4 "mine" none 40).db 21).isSome
        = true := by decide

/-- Witness for admin_item_deletion_cascades on the two-pending-claims
state. -/
theorem admin_item_deletion_cascades_witness :
    findItem dbTwoPending 1 = some pendingItem
    ∧ (adminDeleteItem dbTwoPending 1).ok = true
    ∧ (adminDeleteItem dbTwoPending 1).db.claims = []
    ∧ findItem (adminDeleteItem dbTwoPending 1).db 1 = none := by
  have h := admin_item_deletion_cascades dbTwoPending 1 pendingItem (by decide)
    [1] (by decide)
  exact ⟨by decide, h.1.1, by decide, h.1.2.2⟩

end LostFound
